import Mathlib

/-!
Verification of the Trellis deployment and configuration-merge engine
(`src/configurators/cursor.ts`).

The filesystem is shallowly embedded: a path is a list of components, a
disk maps paths to file contents and records which paths are directories,
and the two structured JSON documents the engine owns (the global
`mcp.json` and the project `hooks.json`) are modelled at the level of
parsed JSON values.  `JSON.stringify` (with a fixed indent) is a
deterministic, injective function of such a value — object key order is
preserved in the `Json.obj` association lists — so equality of modelled
documents coincides with byte equality of the written files.

The helpers `ensureDir` / `writeFile` live in `src/utils/file-writer.ts`,
which is not part of the sources; they are modelled from the spec (see
their doc comments).  The template-bundle location returned by
`getCursorTemplatePath` (also external) is passed in as an opaque path
plus the template's directory tree.
-/

namespace Trellis

/-- A filesystem path, broken into its components. -/
abbrev Path := List String

/-- Parsed JSON values, as produced by `JSON.parse`: object fields are kept
in insertion order, which `JSON.stringify` preserves. -/
inductive Json where
  | null : Json
  | bool : Bool → Json
  | num : Int → Json
  | str : String → Json
  | arr : List Json → Json
  | obj : List (String × Json) → Json

/-- Field lookup on a JSON object (`o[key]`); `none` models `undefined`. -/
def lookupKey : List (String × Json) → String → Option Json
  | [], _ => none
  | (k, v) :: rest, key => if k == key then some v else lookupKey rest key

/-- Field assignment on a JSON object (`o[key] = v`): an existing key keeps
its position, a new key is appended — exactly the JavaScript property
insertion order that `JSON.stringify` serializes. -/
def setKey : List (String × Json) → String → Json → List (String × Json)
  | [], key, v => [(key, v)]
  | (k, w) :: rest, key, v =>
    if k == key then (key, v) :: rest else (k, w) :: setKey rest key v

/-- JavaScript falsiness of a JSON value (`undefined` is handled by
`jsTruthyOpt`).  `NaN` is not representable after `JSON.parse`. -/
def jsFalsy : Json → Bool
  | .null => true
  | .bool b => !b
  | .num n => n == 0
  | .str s => s == ""
  | .arr _ => false
  | .obj _ => false

/-- Truthiness of a field-lookup result, `undefined` (= `none`) being falsy. -/
def jsTruthyOpt : Option Json → Bool
  | none => false
  | some v => !jsFalsy v

/-- State of the global `mcp.json` file: absent, present but not valid
JSON, or present with the given parsed content. -/
inductive McpFile where
  | missing : McpFile
  | invalid : McpFile
  | valid : Json → McpFile

/-- The durable filesystem tree state.  `files` maps a path to the content
of the regular file there (if any), `dirs` records which paths are
directories.  `reads` is a ghost log of every source path passed to
`readFileSync` by the copy routines; it is not filesystem state. -/
structure Disk where
  files : Path → Option String
  dirs : Path → Bool
  reads : List Path

/-- Full modelled state: the disk tree plus the two structured documents
the engine owns, kept as parsed values (their fixed locations — the global
`mcp.json` and the project `.cursor/hooks.json` — are distinct from every
tree-copy destination, which all lie strictly below the `agents/`,
`hooks/`, `commands/` and `mcp-servers/` subdirectories). -/
structure State where
  disk : Disk
  mcpFile : McpFile
  hooksFile : Option Json

/-- All nonempty prefixes of a path (the chain of parent directories,
innermost last). -/
def dirChain (p : Path) : List Path :=
  (List.range p.length).map (fun i => p.take (i + 1))

/-- Modelled from the spec: `ensureDir` from `src/utils/file-writer.ts`
(not in the sources) "ensures destDir exists (creating intermediate
directories) before writing any entry" — it marks the path and every
parent as a directory. -/
def ensureDir (d : Disk) (p : Path) : Disk :=
  { d with dirs := fun q => (dirChain p).contains q || d.dirs q }

/-- Modelled from the spec: `writeFile` from `src/utils/file-writer.ts`
(not in the sources) "read the full source content and write it to the
destination, overwriting". -/
def writeFile (d : Disk) (p : Path) (content : String) : Disk :=
  { d with files := fun q => if q = p then some content else d.files q }

/-- Ghost bookkeeping: record that `readFileSync` was invoked on `p`. -/
def recordRead (d : Disk) (p : Path) : Disk :=
  { d with reads := d.reads ++ [p] }

/-- `existsSync`: true when a regular file or a directory is at `p`. -/
def existsAt (d : Disk) (p : Path) : Bool :=
  (d.files p).isSome || d.dirs p

/-- A directory tree, as the template bundle presents it: an entry is a
base name together with a file (with its content) or a subdirectory.
Names within one real directory listing are unique (`wfEntries`). -/
inductive Node where
  | file : String → Node
  | dir : List (String × Node) → Node

/-- Look a relative path up in a tree (models `existsSync` checks against
the template bundle). -/
def Node.find? : Node → List String → Option Node
  | n, [] => some n
  | .file _, _ :: _ => none
  | .dir es, k :: rest =>
    match es.find? (fun e => e.1 == k) with
    | some e => Node.find? e.2 rest
    | none => none

/-- Real directory listings have unique entry names, recursively. -/
def wfEntries : List (String × Node) → Bool
  | [] => true
  | (n, node) :: rest =>
    !(rest.any (fun e => e.1 == n)) &&
    (match node with
     | .file _ => true
     | .dir ch => wfEntries ch) &&
    wfEntries rest

/-- `EXCLUDE_PATTERNS` from `cursor.ts`: files to exclude when copying
templates. -/
def EXCLUDE_PATTERNS : List String :=
  [".d.ts", ".d.ts.map", ".js", ".js.map", "__pycache__"]

/-- JavaScript `String.prototype.endsWith`, modelled on the character
sequence (the denylist patterns are ASCII, where code-unit and character
suffixes coincide). -/
def strEndsWith (s pattern : String) : Bool :=
  pattern.data.isSuffixOf s.data

/-- `shouldExclude` from `cursor.ts`: suffix- or exact-match against the
denylist. -/
def shouldExclude (filename : String) : Bool :=
  EXCLUDE_PATTERNS.any (fun pattern => strEndsWith filename pattern || filename == pattern)

/-- The loop body of `copyDirFiltered` from `cursor.ts`, over the listed
entries of the source directory: excluded entries are skipped before
`statSync`; a subdirectory is recursed into (`copyDirFiltered` there first
ensures the destination directory); a file is skipped when `skipExisting`
is set and the destination exists, and otherwise is read
(`readFileSync`, logged in `reads`) and written. -/
def copyEntries : List (String × Node) → Path → Path → Bool → Disk → Disk
  | [], _, _, _, d => d
  | (entry, node) :: rest, src, dest, skipExisting, d =>
    if shouldExclude entry then
      copyEntries rest src dest skipExisting d
    else
      match node with
      | .dir children =>
        copyEntries rest src dest skipExisting
          (copyEntries children (src ++ [entry]) (dest ++ [entry]) skipExisting
            (ensureDir d (dest ++ [entry])))
      | .file content =>
        if skipExisting && existsAt d (dest ++ [entry]) then
          copyEntries rest src dest skipExisting d
        else
          copyEntries rest src dest skipExisting
            (writeFile (recordRead d (src ++ [entry])) (dest ++ [entry]) content)

/-- `copyDirFiltered` from `cursor.ts`: ensure the destination directory,
then copy the source directory's entries.  The source is required to be a
directory; on a file, `readdirSync` would raise a fatal error, which is
outside the modelled claims (see `unitOk`). -/
def copyDirFiltered (node : Node) (src dest : Path) (skipExisting : Bool) (d : Disk) : Disk :=
  match node with
  | .file _ => d
  | .dir entries => copyEntries entries src dest skipExisting (ensureDir d dest)

/-- `installGlobalAgents` from `cursor.ts`. -/
def installGlobalAgents (globalCursorDir templatePath : Path) (t : Node) (d : Disk) : Disk :=
  match t.find? ["agents"] with
  | none => d
  | some node =>
    copyDirFiltered node (templatePath ++ ["agents"]) (globalCursorDir ++ ["agents"]) true d

/-- `installGlobalHooks` from `cursor.ts`. -/
def installGlobalHooks (globalCursorDir templatePath : Path) (t : Node) (d : Disk) : Disk :=
  match t.find? ["hooks"] with
  | none => d
  | some node =>
    copyDirFiltered node (templatePath ++ ["hooks"]) (globalCursorDir ++ ["hooks"]) true d

/-- `installGlobalCommands` from `cursor.ts`. -/
def installGlobalCommands (globalCursorDir templatePath : Path) (t : Node) (d : Disk) : Disk :=
  match t.find? ["commands"] with
  | none => d
  | some node =>
    copyDirFiltered node (templatePath ++ ["commands"]) (globalCursorDir ++ ["commands"]) true d

/-- The flat copy loop of `installGlobalMcpServer`: every top-level
regular file of the unit is read and written (no exclusion filter, no
per-file skip); subdirectories are ignored. -/
def flatCopyFiles : List (String × Node) → Path → Path → Disk → Disk
  | [], _, _, d => d
  | (entry, node) :: rest, src, dest, d =>
    match node with
    | .file content =>
      flatCopyFiles rest src dest
        (writeFile (recordRead d (src ++ [entry])) (dest ++ [entry]) content)
    | .dir _ => flatCopyFiles rest src dest d

/-- `installGlobalMcpServer` from `cursor.ts`: no-op when the template
unit is absent or when the completion marker `server.py` already exists at
the destination; otherwise ensure the destination directory and flat-copy
the unit's regular files. -/
def installGlobalMcpServer (globalCursorDir templatePath : Path) (t : Node) (d : Disk) : Disk :=
  match t.find? ["mcp-servers", "trellis-context"] with
  | none => d
  | some node =>
    if existsAt d (globalCursorDir ++ ["mcp-servers", "trellis-context", "server.py"]) then d
    else
      match node with
      | .file _ => d
      | .dir entries =>
        flatCopyFiles entries (templatePath ++ ["mcp-servers", "trellis-context"])
          (globalCursorDir ++ ["mcp-servers", "trellis-context"])
          (ensureDir d (globalCursorDir ++ ["mcp-servers", "trellis-context"]))

/-- `path.join` over path components with the host separator `sep`. -/
def render (sep : Char) (p : Path) : String :=
  ⟨List.intercalate [sep] (p.map String.data)⟩

/-- `.replace(/\\/g, "/")`: every backslash character becomes a forward
slash. -/
def normalizeSlashes (s : String) : String :=
  ⟨s.data.map (fun c => if c == '\\' then '/' else c)⟩

/-- Whether a string contains a backslash character. -/
def hasBackslash (s : String) : Bool :=
  s.data.any (fun c => c == '\\')

/-- The fixed document `createProjectHooksJson` writes, as a function of
the global directory and the host path separator: field order follows the
object literal in `cursor.ts`. -/
def hooksConfig (sep : Char) (globalCursorDir : Path) : Json :=
  Json.obj [
    ("version", Json.num 1),
    ("hooks", Json.obj [
      ("sessionStart", Json.arr [
        Json.obj [("command",
          Json.str ("python \"" ++ normalizeSlashes (render sep (globalCursorDir ++ ["hooks"]))
            ++ "/session-start.py\""))]
      ]),
      ("subagentStop", Json.arr [
        Json.obj [
          ("matcher", Json.str "check"),
          ("command",
            Json.str ("python \"" ++ normalizeSlashes (render sep (globalCursorDir ++ ["hooks"]))
              ++ "/ralph-loop.py\"")),
          ("loop_limit", Json.num 5)
        ]
      ])
    ])
  ]

/-- `createProjectHooksJson` from `cursor.ts`: unconditionally overwrite
the project activation file with the fixed document. -/
def createProjectHooksJson (sep : Char) (projectCursorDir globalCursorDir : Path)
    (st : State) : State :=
  let _ := projectCursorDir
  { st with hooksFile := some (hooksConfig sep globalCursorDir) }

/-- The entry `registerGlobalMcp` inserts: `command` and `args` only (no
`env`), the `args` path slash-normalized. -/
def mcpEntry (sep : Char) (globalCursorDir : Path) : Json :=
  Json.obj [
    ("command", Json.str "python"),
    ("args", Json.arr [Json.str (normalizeSlashes
      (render sep (globalCursorDir ++ ["mcp-servers", "trellis-context", "server.py"])))])
  ]

/-- The value of `mcpConfig` after the read / parse / default block of
`registerGlobalMcp`: a missing file, an unparsable file, or any top-level
primitive (on which the `.mcpServers` access or assignment throws inside
the `try`) all collapse to the empty default; a top-level object gets a
falsy or absent `mcpServers` replaced by `{}`; a top-level array keeps its
elements (the `mcpServers` property set on the array object is dropped by
`JSON.stringify`, see `registerGlobalMcp`). -/
def normalizedConfig : McpFile → Json
  | .missing => Json.obj [("mcpServers", Json.obj [])]
  | .invalid => Json.obj [("mcpServers", Json.obj [])]
  | .valid j =>
    match j with
    | .obj kvs =>
      if jsTruthyOpt (lookupKey kvs "mcpServers") then Json.obj kvs
      else Json.obj (setKey kvs "mcpServers" (Json.obj []))
    | .arr xs => Json.arr xs
    | _ => Json.obj [("mcpServers", Json.obj [])]

/-- `registerGlobalMcp` from `cursor.ts`.  After normalization: when
`mcpServers` is an object already holding a truthy `"trellis-context"`,
nothing is written; otherwise the entry is inserted and the whole document
rewritten.  `none` models the uncaught `TypeError` raised (in strict mode,
outside the `try`) by assigning a property to a truthy primitive
`mcpServers`; when `mcpServers` is an array the assignment lands on a
non-index property that `JSON.stringify` drops, so the file is rewritten
with an unchanged document — likewise for a top-level array.  The two
final `none` arms are unreachable: normalization always yields a top-level
object or array, with `mcpServers` present on objects. -/
def registerGlobalMcp (sep : Char) (globalCursorDir : Path) (st : State) : Option State :=
  match normalizedConfig st.mcpFile with
  | .obj kvs =>
    match lookupKey kvs "mcpServers" with
    | some (.obj servers) =>
      if jsTruthyOpt (lookupKey servers "trellis-context") then some st
      else
        some { st with mcpFile := .valid (.obj (setKey kvs "mcpServers"
          (.obj (setKey servers "trellis-context" (mcpEntry sep globalCursorDir))))) }
    | some (.arr _) => some { st with mcpFile := .valid (.obj kvs) }
    | some _ => none
    | none => none
  | .arr xs => some { st with mcpFile := .valid (.arr xs) }
  | _ => none

/-- `configureCursor` from `cursor.ts`: the orchestrator.  `templatePath`
is the opaque location `getCursorTemplatePath` returns and `t` the
template tree found there.  `none` propagates the `registerGlobalMcp`
failure case. -/
def configureCursor (sep : Char) (userHome cwd templatePath : Path) (t : Node)
    (st : State) : Option State :=
  let globalCursorDir := userHome ++ [".cursor"]
  let projectCursorDir := cwd ++ [".cursor"]
  let d0 := ensureDir (ensureDir st.disk globalCursorDir) projectCursorDir
  let d1 := installGlobalAgents globalCursorDir templatePath t d0
  let d2 := installGlobalHooks globalCursorDir templatePath t d1
  let d3 := installGlobalCommands globalCursorDir templatePath t d2
  let d4 := installGlobalMcpServer globalCursorDir templatePath t d3
  match registerGlobalMcp sep globalCursorDir { st with disk := d4 } with
  | none => none
  | some st1 => some (createProjectHooksJson sep projectCursorDir globalCursorDir st1)

/-- The state of a completely empty global and project root. -/
def emptyState : State :=
  { disk := { files := fun _ => none, dirs := fun _ => false, reads := [] },
    mcpFile := .missing,
    hooksFile := none }

/-- A template unit subpath is usable when it is absent or a directory
(`readdirSync` on a file is a fatal error outside the model). -/
def unitOk (t : Node) (u : List String) : Bool :=
  match t.find? u with
  | some (.file _) => false
  | _ => true

/-- All four installer unit subpaths are usable. -/
def unitShape (t : Node) : Bool :=
  unitOk t ["agents"] && unitOk t ["hooks"] && unitOk t ["commands"] &&
    unitOk t ["mcp-servers", "trellis-context"]

/-- Well-formedness of a template tree: directory listings never repeat an
entry name. -/
def wfB : Node → Bool
  | .file _ => true
  | .dir es => wfEntries es

/-- A disk covers a template directory below `dest` when every entry the
skip-existing copy would touch is already present: every non-excluded file
exists at its destination, and every non-excluded subdirectory exists
(with its parent chain) and is covered recursively.  A skip-existing copy
of a covered directory is a no-op (`copyEntries_id`). -/
def covers (d : Disk) : List (String × Node) → Path → Prop
  | [], _ => True
  | (n, .file _) :: rest, dest =>
    (¬ shouldExclude n = true → existsAt d (dest ++ [n]) = true) ∧ covers d rest dest
  | (n, .dir ch) :: rest, dest =>
    (¬ shouldExclude n = true →
      (∀ q ∈ dirChain (dest ++ [n]), d.dirs q = true) ∧ covers d ch (dest ++ [n])) ∧
    covers d rest dest

/-- `q` is a destination path the filtered copy below `dest` could create:
strictly below `dest`, with no denylisted component on the way. -/
def cleanUnder (dest q : Path) : Bool :=
  dest.isPrefixOf q && decide (dest.length < q.length) &&
    (q.drop dest.length).all (fun c => !shouldExclude c)

/-! ### Concrete fixtures used by witnesses and counterexamples -/

/-- A small well-formed template bundle with all four units. -/
def tEx : Node := .dir [
  ("agents", .dir [("implement.md", .file "A"), ("plan.md", .file "P")]),
  ("hooks", .dir [("session-start.py", .file "H"), ("ralph-loop.py", .file "R")]),
  ("commands", .dir [("trellis-start.md", .file "C")]),
  ("mcp-servers", .dir [("trellis-context", .dir [("server.py", .file "S")])])]

/-- A template whose background-service unit contains a compiled artifact
with a denylisted suffix. -/
def tC3 : Node := .dir [("mcp-servers", .dir [("trellis-context",
  .dir [("bundle.js", .file "compiled artifact")])])]

/-- A template with a two-file prompt-agent unit. -/
def tC4 : Node := .dir [("agents", .dir [("implement.md", .file "T1"), ("plan.md", .file "T2")])]

/-- A destination that already holds the unit's primary file
`agents/implement.md` (a previous install's completion marker), with the
other template file absent. -/
def dC4 : Disk :=
  { files := fun q => if q = ["home", ".cursor", "agents", "implement.md"]
      then some "user content" else none,
    dirs := fun _ => false, reads := [] }

/-- A destination holding a customized file at the copy target. -/
def dC2 : Disk :=
  { files := fun q => if q = ["g", "dest", "custom.md"] then some "user edit" else none,
    dirs := fun _ => false, reads := [] }

/-- A template directory whose `custom.md` differs from the destination's. -/
def nC2 : Node := .dir [("custom.md", .file "template version")]

/-- A config state whose document already holds a hand-edited
`trellis-context` entry. -/
def stC5 : State :=
  { disk := { files := fun _ => none, dirs := fun _ => false, reads := [] },
    mcpFile := .valid (.obj [("mcpServers", .obj [("trellis-context",
      .obj [("command", .str "my-custom-python"), ("args", .arr [.str "edited.py"])])])]),
    hooksFile := none }

/-- A config state with a foreign `other-svc` entry and no
`trellis-context` entry. -/
def stC6 : State :=
  { disk := { files := fun _ => none, dirs := fun _ => false, reads := [] },
    mcpFile := .valid (.obj [("mcpServers", .obj [("other-svc",
      .obj [("command", .str "node"), ("args", .arr [.str "svc.js"]),
        ("env", .obj [("PORT", .str "1234")])])])]),
    hooksFile := none }

/-- A config state whose file exists but does not parse. -/
def stC7 : State :=
  { disk := { files := fun _ => none, dirs := fun _ => false, reads := [] },
    mcpFile := .invalid,
    hooksFile := none }

/-- A parseable config document with a foreign top-level key next to
`mcpServers`. -/
def stC10 : State :=
  { disk := { files := fun _ => none, dirs := fun _ => false, reads := [] },
    mcpFile := .valid (.obj [("otherTopLevel", .str "keep me"), ("mcpServers", .obj [])]),
    hooksFile := none }

/-! ### Basic facts about the primitive disk operations -/

theorem Disk.ext' {d d' : Disk} (hf : d.files = d'.files) (hd : d.dirs = d'.dirs)
    (hr : d.reads = d'.reads) : d = d' := by
  cases d; cases d'; simp_all

theorem ensureDir_files (d : Disk) (p : Path) : (ensureDir d p).files = d.files := rfl

theorem ensureDir_reads (d : Disk) (p : Path) : (ensureDir d p).reads = d.reads := rfl

theorem writeFile_dirs (d : Disk) (p : Path) (c : String) : (writeFile d p c).dirs = d.dirs := rfl

theorem writeFile_reads (d : Disk) (p : Path) (c : String) : (writeFile d p c).reads = d.reads := rfl

theorem recordRead_files (d : Disk) (p : Path) : (recordRead d p).files = d.files := rfl

theorem recordRead_dirs (d : Disk) (p : Path) : (recordRead d p).dirs = d.dirs := rfl

theorem ensureDir_dirs_mono (d : Disk) (p q : Path) (h : d.dirs q = true) :
    (ensureDir d p).dirs q = true := by
  simp [ensureDir, h]

theorem ensureDir_exists_mono (d : Disk) (p q : Path) (h : existsAt d q = true) :
    existsAt (ensureDir d p) q = true := by
  rcases Bool.or_eq_true_iff.mp h with h' | h'
  · exact Bool.or_eq_true_iff.mpr (Or.inl h')
  · exact Bool.or_eq_true_iff.mpr (Or.inr (ensureDir_dirs_mono d p q h'))

theorem ensureDir_chain (d : Disk) (p q : Path) (h : q ∈ dirChain p) :
    (ensureDir d p).dirs q = true := by
  simp [ensureDir]
  exact Or.inl h

theorem ensureDir_id (d : Disk) (p : Path)
    (h : ∀ q ∈ dirChain p, d.dirs q = true) : ensureDir d p = d := by
  refine Disk.ext' ?_ ?_ ?_ <;> try rfl
  funext q
  simp only [ensureDir]
  by_cases hq : q ∈ dirChain p
  · simp [hq, h q hq]
  · simp [hq]

theorem writeFile_files_at (d : Disk) (p : Path) (c : String) :
    (writeFile d p c).files p = some c := by
  simp [writeFile]

theorem writeFile_files_ne (d : Disk) (p q : Path) (c : String) (h : q ≠ p) :
    (writeFile d p c).files q = d.files q := by
  simp [writeFile, h]

theorem writeFile_exists_mono (d : Disk) (p q : Path) (c : String)
    (h : existsAt d q = true) : existsAt (writeFile d p c) q = true := by
  rcases Bool.or_eq_true_iff.mp h with h' | h'
  · refine Bool.or_eq_true_iff.mpr (Or.inl ?_)
    by_cases hq : q = p
    · subst hq; simp [writeFile]
    · rwa [writeFile_files_ne d p q c hq]
  · exact Bool.or_eq_true_iff.mpr (Or.inr h')

theorem writeFile_same (d : Disk) (p : Path) (c : String) (h : d.files p = some c) :
    (writeFile d p c).files = d.files := by
  funext q
  by_cases hq : q = p
  · subst hq; simp [writeFile, h]
  · simp [writeFile, hq]

theorem recordRead_exists (d : Disk) (p q : Path) :
    existsAt (recordRead d p) q = existsAt d q := rfl

/-! ### Monotonicity and frame lemmas for the recursive tree copy -/

theorem copyEntries_dirs_mono (e : List (String × Node)) (s dest : Path) (sk : Bool)
    (d : Disk) (p : Path) (h : d.dirs p = true) :
    (copyEntries e s dest sk d).dirs p = true := by
  match e with
  | [] => simpa [copyEntries] using h
  | (n, .file content) :: rest =>
    rw [copyEntries]
    by_cases hex : shouldExclude n = true
    · simp only [hex, if_true]
      exact copyEntries_dirs_mono rest s dest sk d p h
    · simp only [hex, if_false]
      by_cases hsk : (sk && existsAt d (dest ++ [n])) = true
      · simp only [hsk, if_true]
        exact copyEntries_dirs_mono rest s dest sk d p h
      · simp only [hsk, if_false]
        exact copyEntries_dirs_mono rest s dest sk _ p (by simpa [writeFile, recordRead] using h)
  | (n, .dir ch) :: rest =>
    rw [copyEntries]
    by_cases hex : shouldExclude n = true
    · simp only [hex, if_true]
      exact copyEntries_dirs_mono rest s dest sk d p h
    · simp only [hex, if_false]
      exact copyEntries_dirs_mono rest s dest sk _ p
        (copyEntries_dirs_mono ch (s ++ [n]) (dest ++ [n]) sk _ p
          (ensureDir_dirs_mono d (dest ++ [n]) p h))

theorem copyEntries_exists_mono (e : List (String × Node)) (s dest : Path) (sk : Bool)
    (d : Disk) (p : Path) (h : existsAt d p = true) :
    existsAt (copyEntries e s dest sk d) p = true := by
  match e with
  | [] => simpa [copyEntries] using h
  | (n, .file content) :: rest =>
    rw [copyEntries]
    by_cases hex : shouldExclude n = true
    · simp only [hex, if_true]
      exact copyEntries_exists_mono rest s dest sk d p h
    · simp only [hex, if_false]
      by_cases hsk : (sk && existsAt d (dest ++ [n])) = true
      · simp only [hsk, if_true]
        exact copyEntries_exists_mono rest s dest sk d p h
      · simp only [hsk, if_false]
        refine copyEntries_exists_mono rest s dest sk _ p ?_
        rw [show (recordRead d (s ++ [n])) = { d with reads := d.reads ++ [s ++ [n]] } from rfl]
        exact writeFile_exists_mono _ _ p content h
  | (n, .dir ch) :: rest =>
    rw [copyEntries]
    by_cases hex : shouldExclude n = true
    · simp only [hex, if_true]
      exact copyEntries_exists_mono rest s dest sk d p h
    · simp only [hex, if_false]
      exact copyEntries_exists_mono rest s dest sk _ p
        (copyEntries_exists_mono ch (s ++ [n]) (dest ++ [n]) sk _ p
          (ensureDir_exists_mono d (dest ++ [n]) p h))

theorem copyEntries_preserve (e : List (String × Node)) (s dest : Path)
    (d : Disk) (p : Path) (c : String) (h : d.files p = some c) :
    (copyEntries e s dest true d).files p = some c := by
  match e with
  | [] => simpa [copyEntries] using h
  | (n, .file content) :: rest =>
    rw [copyEntries]
    by_cases hex : shouldExclude n = true
    · simp only [hex, if_true]
      exact copyEntries_preserve rest s dest d p c h
    · simp only [hex, if_false]
      by_cases hsk : (true && existsAt d (dest ++ [n])) = true
      · simp only [hsk, if_true]
        exact copyEntries_preserve rest s dest d p c h
      · simp only [hsk, if_false]
        refine copyEntries_preserve rest s dest _ p c ?_
        have hpne : p ≠ dest ++ [n] := by
          intro hp
          subst hp
          simp only [Bool.true_and] at hsk
          simp [existsAt, h] at hsk
        rw [show (writeFile (recordRead d (s ++ [n])) (dest ++ [n]) content).files p =
              (recordRead d (s ++ [n])).files p from writeFile_files_ne _ _ _ _ hpne]
        simpa [recordRead] using h
  | (n, .dir ch) :: rest =>
    rw [copyEntries]
    by_cases hex : shouldExclude n = true
    · simp only [hex, if_true]
      exact copyEntries_preserve rest s dest d p c h
    · simp only [hex, if_false]
      refine copyEntries_preserve rest s dest _ p c ?_
      refine copyEntries_preserve ch (s ++ [n]) (dest ++ [n]) _ p c ?_
      simpa [ensureDir] using h


/-! ### Coverage: a skip-existing copy over an already-populated destination -/

theorem covers_mono (e : List (String × Node)) (dest : Path) (d d' : Disk)
    (hex : ∀ p, existsAt d p = true → existsAt d' p = true)
    (hdi : ∀ p, d.dirs p = true → d'.dirs p = true)
    (h : covers d e dest) : covers d' e dest := by
  match e with
  | [] => rw [covers]; trivial
  | (n, .file c) :: rest =>
    rw [covers] at h ⊢
    exact ⟨fun hne => hex _ (h.1 hne), covers_mono rest dest d d' hex hdi h.2⟩
  | (n, .dir ch) :: rest =>
    rw [covers] at h ⊢
    refine ⟨fun hne => ?_, covers_mono rest dest d d' hex hdi h.2⟩
    obtain ⟨hall, hch⟩ := h.1 hne
    exact ⟨fun q hq => hdi q (hall q hq), covers_mono ch (dest ++ [n]) d d' hex hdi hch⟩

theorem copyEntries_covers (e : List (String × Node)) (s dest : Path) (d : Disk) :
    covers (copyEntries e s dest true d) e dest := by
  match e with
  | [] => rw [covers]; trivial
  | (n, .file c) :: rest =>
    rw [copyEntries, covers]
    by_cases he : shouldExclude n = true
    · rw [if_pos he]
      exact ⟨fun hne => absurd he hne, copyEntries_covers rest s dest d⟩
    · rw [if_neg he]
      by_cases hsk : (true && existsAt d (dest ++ [n])) = true
      · rw [if_pos hsk]
        exact ⟨fun _ => copyEntries_exists_mono rest s dest true d _ (by simpa using hsk),
          copyEntries_covers rest s dest d⟩
      · rw [if_neg hsk]
        refine ⟨fun _ => ?_, copyEntries_covers rest s dest _⟩
        refine copyEntries_exists_mono rest s dest true _ _ ?_
        simp [existsAt, writeFile]
  | (n, .dir ch) :: rest =>
    rw [copyEntries, covers]
    by_cases he : shouldExclude n = true
    · rw [if_pos he]
      exact ⟨fun hne => absurd he hne, copyEntries_covers rest s dest d⟩
    · rw [if_neg he]
      refine ⟨fun _ => ⟨?_, ?_⟩, copyEntries_covers rest s dest _⟩
      · intro q hq
        refine copyEntries_dirs_mono rest s dest true _ q ?_
        exact copyEntries_dirs_mono ch (s ++ [n]) (dest ++ [n]) true _ q
          (ensureDir_chain d (dest ++ [n]) q hq)
      · refine covers_mono ch (dest ++ [n])
          (copyEntries ch (s ++ [n]) (dest ++ [n]) true (ensureDir d (dest ++ [n]))) _
          ?_ ?_ ?_
        · exact fun p hp => copyEntries_exists_mono rest s dest true _ p hp
        · exact fun p hp => copyEntries_dirs_mono rest s dest true _ p hp
        · exact copyEntries_covers ch (s ++ [n]) (dest ++ [n]) _

theorem copyEntries_id (e : List (String × Node)) (s dest : Path) (d : Disk)
    (h : covers d e dest) : copyEntries e s dest true d = d := by
  match e with
  | [] => rw [copyEntries]
  | (n, .file c) :: rest =>
    rw [covers] at h
    rw [copyEntries]
    by_cases he : shouldExclude n = true
    · rw [if_pos he]
      exact copyEntries_id rest s dest d h.2
    · rw [if_neg he, if_pos (show (true && existsAt d (dest ++ [n])) = true by simp [h.1 he])]
      exact copyEntries_id rest s dest d h.2
  | (n, .dir ch) :: rest =>
    rw [covers] at h
    rw [copyEntries]
    by_cases he : shouldExclude n = true
    · rw [if_pos he]
      exact copyEntries_id rest s dest d h.2
    · rw [if_neg he]
      obtain ⟨hall, hch⟩ := h.1 he
      rw [ensureDir_id d (dest ++ [n]) hall,
        copyEntries_id ch (s ++ [n]) (dest ++ [n]) d hch,
        copyEntries_id rest s dest d h.2]

theorem cleanUnder_iff (dest q : Path) :
    cleanUnder dest q = true ↔
      ∃ r, q = dest ++ r ∧ r ≠ [] ∧ ∀ x ∈ r, shouldExclude x = false := by
  constructor
  · intro h
    unfold cleanUnder at h
    simp only [Bool.and_eq_true, decide_eq_true_eq] at h
    obtain ⟨⟨hpre, hlt⟩, hall⟩ := h
    obtain ⟨r, hr⟩ := List.isPrefixOf_iff_prefix.mp hpre
    refine ⟨r, hr.symm, ?_, ?_⟩
    · intro hnil
      rw [hnil, List.append_nil] at hr
      rw [hr] at hlt
      omega
    · intro x hx
      have hdrop : q.drop dest.length = r := by rw [← hr, List.drop_left]
      have hx2 := List.all_eq_true.mp hall x (by rwa [hdrop])
      simpa using hx2
  · rintro ⟨r, hq, hne, hall⟩
    subst hq
    unfold cleanUnder
    simp only [Bool.and_eq_true, decide_eq_true_eq]
    refine ⟨⟨List.isPrefixOf_iff_prefix.mpr ⟨r, rfl⟩, ?_⟩, ?_⟩
    · have hlen : 0 < r.length := List.length_pos.mpr hne
      simp only [List.length_append]
      omega
    · rw [List.drop_left]
      refine List.all_eq_true.mpr ?_
      intro x hx
      simp [hall x hx]

theorem copyEntries_frame (e : List (String × Node)) (s dest : Path) (sk : Bool)
    (d : Disk) (q : Path) (h : cleanUnder dest q = false) :
    (copyEntries e s dest sk d).files q = d.files q := by
  match e with
  | [] => rw [copyEntries]
  | (n, .file c) :: rest =>
    rw [copyEntries]
    by_cases he : shouldExclude n = true
    · rw [if_pos he]
      exact copyEntries_frame rest s dest sk d q h
    · rw [if_neg he]
      by_cases hsk : (sk && existsAt d (dest ++ [n])) = true
      · rw [if_pos hsk]
        exact copyEntries_frame rest s dest sk d q h
      · rw [if_neg hsk]
        rw [copyEntries_frame rest s dest sk _ q h]
        have hqn : q ≠ dest ++ [n] := by
          intro hq
          have hcl : cleanUnder dest (dest ++ [n]) = true :=
            (cleanUnder_iff dest (dest ++ [n])).mpr ⟨[n], rfl, by simp, by
              intro x hx
              simp only [List.mem_singleton] at hx
              subst hx
              exact Bool.eq_false_iff.mpr he⟩
          rw [hq, hcl] at h
          cases h
        rw [writeFile_files_ne _ _ _ _ hqn]
        rfl
  | (n, .dir ch) :: rest =>
    rw [copyEntries]
    by_cases he : shouldExclude n = true
    · rw [if_pos he]
      exact copyEntries_frame rest s dest sk d q h
    · rw [if_neg he]
      rw [copyEntries_frame rest s dest sk _ q h]
      have hch : cleanUnder (dest ++ [n]) q = false := by
        cases hc : cleanUnder (dest ++ [n]) q
        · rfl
        · exfalso
          obtain ⟨r, hr, hne, hall⟩ := (cleanUnder_iff _ _).mp hc
          have hcl : cleanUnder dest q = true := by
            refine (cleanUnder_iff _ _).mpr ⟨n :: r, ?_, by simp, ?_⟩
            · rw [hr, List.append_assoc]
              rfl
            · intro x hx
              rcases List.mem_cons.mp hx with rfl | hx2
              · exact Bool.eq_false_iff.mpr he
              · exact hall x hx2
          rw [hcl] at h
          cases h
      rw [copyEntries_frame ch (s ++ [n]) (dest ++ [n]) sk _ q hch]
      rfl

theorem copyEntries_reads (e : List (String × Node)) (s dest : Path)
    (d : Disk) (x : Path) (hx : x ∈ (copyEntries e s dest true d).reads) :
    x ∈ d.reads ∨ ∃ r, x = s ++ r ∧ existsAt d (dest ++ r) = false := by
  match e with
  | [] =>
    rw [copyEntries] at hx
    exact Or.inl hx
  | (n, .file c) :: rest =>
    rw [copyEntries] at hx
    by_cases he : shouldExclude n = true
    · rw [if_pos he] at hx
      exact copyEntries_reads rest s dest d x hx
    · rw [if_neg he] at hx
      by_cases hsk : (true && existsAt d (dest ++ [n])) = true
      · rw [if_pos hsk] at hx
        exact copyEntries_reads rest s dest d x hx
      · rw [if_neg hsk] at hx
        have hskf : existsAt d (dest ++ [n]) = false := by
          revert hsk
          cases existsAt d (dest ++ [n]) <;> simp
        rcases copyEntries_reads rest s dest _ x hx with hin | ⟨r, hr, hex2⟩
        · have hin' : x ∈ d.reads ∨ x = s ++ [n] := by
            simpa [writeFile, recordRead] using hin
          rcases hin' with hin2 | rfl
          · exact Or.inl hin2
          · exact Or.inr ⟨[n], rfl, hskf⟩
        · right
          refine ⟨r, hr, ?_⟩
          cases hdq : existsAt d (dest ++ r)
          · rfl
          · exfalso
            have hmono : existsAt (writeFile (recordRead d (s ++ [n])) (dest ++ [n]) c)
                (dest ++ r) = true :=
              writeFile_exists_mono _ _ _ c (by rwa [recordRead_exists])
            rw [hmono] at hex2
            cases hex2
  | (n, .dir ch) :: rest =>
    rw [copyEntries] at hx
    by_cases he : shouldExclude n = true
    · rw [if_pos he] at hx
      exact copyEntries_reads rest s dest d x hx
    · rw [if_neg he] at hx
      rcases copyEntries_reads rest s dest _ x hx with hin | ⟨r, hr, hex2⟩
      · rcases copyEntries_reads ch (s ++ [n]) (dest ++ [n]) _ x hin with hin2 | ⟨r2, hr2, hex3⟩
        · exact Or.inl (by simpa [ensureDir] using hin2)
        · right
          refine ⟨[n] ++ r2, by rw [hr2, List.append_assoc], ?_⟩
          cases hdq : existsAt d (dest ++ ([n] ++ r2))
          · rfl
          · exfalso
            have hmono : existsAt (ensureDir d (dest ++ [n])) ((dest ++ [n]) ++ r2) = true := by
              refine ensureDir_exists_mono d _ _ ?_
              rwa [← List.append_assoc] at hdq
            rw [hmono] at hex3
            cases hex3
      · right
        refine ⟨r, hr, ?_⟩
        cases hdq : existsAt d (dest ++ r)
        · rfl
        · exfalso
          have hmono : existsAt (copyEntries ch (s ++ [n]) (dest ++ [n]) true
              (ensureDir d (dest ++ [n]))) (dest ++ r) = true :=
            copyEntries_exists_mono _ _ _ true _ _ (ensureDir_exists_mono d _ _ hdq)
          rw [hmono] at hex2
          cases hex2

/-! ### The flat file copy of the background-service installer -/

theorem flatCopyFiles_dirs (e : List (String × Node)) (s dest : Path) (d : Disk) :
    (flatCopyFiles e s dest d).dirs = d.dirs := by
  match e with
  | [] => rw [flatCopyFiles]
  | (n, .file c) :: rest =>
    rw [flatCopyFiles]
    rw [flatCopyFiles_dirs rest s dest _]
    rfl
  | (n, .dir ch) :: rest =>
    rw [flatCopyFiles]
    exact flatCopyFiles_dirs rest s dest d

theorem flatCopyFiles_exists_mono (e : List (String × Node)) (s dest : Path) (d : Disk)
    (p : Path) (h : existsAt d p = true) : existsAt (flatCopyFiles e s dest d) p = true := by
  match e with
  | [] => rwa [flatCopyFiles]
  | (n, .file c) :: rest =>
    rw [flatCopyFiles]
    refine flatCopyFiles_exists_mono rest s dest _ p ?_
    exact writeFile_exists_mono _ _ _ c (by rwa [recordRead_exists])
  | (n, .dir ch) :: rest =>
    rw [flatCopyFiles]
    exact flatCopyFiles_exists_mono rest s dest d p h

theorem flatCopyFiles_frame (e : List (String × Node)) (s dest : Path) (d : Disk) (q : Path)
    (h : ∀ n c, (n, Node.file c) ∈ e → dest ++ [n] ≠ q) :
    (flatCopyFiles e s dest d).files q = d.files q := by
  match e with
  | [] => rw [flatCopyFiles]
  | (n, .file c) :: rest =>
    rw [flatCopyFiles]
    rw [flatCopyFiles_frame rest s dest _ q (fun n' c' hm => h n' c' (List.mem_cons_of_mem _ hm))]
    rw [writeFile_files_ne _ _ _ _ (fun hq => h n c (List.mem_cons_self _ _) hq.symm)]
    rfl
  | (n, .dir ch) :: rest =>
    rw [flatCopyFiles]
    exact flatCopyFiles_frame rest s dest d q (fun n' c' hm => h n' c' (List.mem_cons_of_mem _ hm))

theorem flatCopyFiles_post (e : List (String × Node)) (s dest : Path) (d : Disk)
    (hwf : wfEntries e = true) (n : String) (c : String) (hmem : (n, Node.file c) ∈ e) :
    (flatCopyFiles e s dest d).files (dest ++ [n]) = some c := by
  match e with
  | [] => cases hmem
  | (m, .file cm) :: rest =>
    simp only [wfEntries, Bool.and_eq_true, Bool.not_eq_true'] at hwf
    rw [flatCopyFiles]
    rcases List.mem_cons.mp hmem with heq | hmem2
    · obtain ⟨rfl, rfl⟩ : m = n ∧ cm = c := by
        constructor <;> injection heq with h1 h2 <;> simp_all
      rw [flatCopyFiles_frame rest s dest _ (dest ++ [m]) ?_]
      · exact writeFile_files_at _ _ _
      · intro n' c' hm' hq
        have hne : n' = m := by
          have := List.append_cancel_left hq
          simpa using this
        subst hne
        have : rest.any (fun e => e.1 == n') = true :=
          List.any_eq_true.mpr ⟨(n', Node.file c'), hm', by simp⟩
        rw [hwf.1.1] at this
        cases this
    · exact flatCopyFiles_post rest s dest _ hwf.2 n c hmem2
  | (m, .dir ch) :: rest =>
    simp only [wfEntries, Bool.and_eq_true, Bool.not_eq_true'] at hwf
    rw [flatCopyFiles]
    rcases List.mem_cons.mp hmem with heq | hmem2
    · cases heq
    · exact flatCopyFiles_post rest s dest d hwf.2 n c hmem2

theorem flatCopyFiles_id (e : List (String × Node)) (s dest : Path) (d : Disk)
    (h : ∀ n c, (n, Node.file c) ∈ e → d.files (dest ++ [n]) = some c) :
    (flatCopyFiles e s dest d).files = d.files := by
  match e with
  | [] => rw [flatCopyFiles]
  | (n, .file c) :: rest =>
    rw [flatCopyFiles]
    have hsame : (writeFile (recordRead d (s ++ [n])) (dest ++ [n]) c).files = d.files := by
      have := writeFile_same (recordRead d (s ++ [n])) (dest ++ [n]) c
        (by simpa [recordRead] using h n c (List.mem_cons_self _ _))
      simpa [recordRead] using this
    rw [flatCopyFiles_id rest s dest _ ?_]
    · exact hsame
    · intro n' c' hm'
      rw [hsame]
      exact h n' c' (List.mem_cons_of_mem _ hm')
  | (n, .dir ch) :: rest =>
    rw [flatCopyFiles]
    exact flatCopyFiles_id rest s dest d (fun n' c' hm' => h n' c' (List.mem_cons_of_mem _ hm'))

/-! ### Well-formedness propagates through lookups -/

theorem wfEntries_mem (es : List (String × Node)) (hwf : wfEntries es = true)
    (n : String) (node : Node) (hmem : (n, node) ∈ es) : wfB node = true := by
  match es with
  | [] => cases hmem
  | (m, .file cm) :: rest =>
    simp only [wfEntries, Bool.and_eq_true, Bool.not_eq_true'] at hwf
    rcases List.mem_cons.mp hmem with heq | hmem2
    · injection heq with h1 h2
      subst h2
      rw [wfB]
    · exact wfEntries_mem rest hwf.2 n node hmem2
  | (m, .dir ch) :: rest =>
    simp only [wfEntries, Bool.and_eq_true, Bool.not_eq_true'] at hwf
    rcases List.mem_cons.mp hmem with heq | hmem2
    · injection heq with h1 h2
      subst h2
      rw [wfB]
      exact hwf.1.2
    · exact wfEntries_mem rest hwf.2 n node hmem2

theorem find?_wf (u : List String) (t : Node) (nd : Node) (hwf : wfB t = true)
    (hfind : t.find? u = some nd) : wfB nd = true := by
  match u with
  | [] =>
    rw [Node.find?] at hfind
    cases hfind
    exact hwf
  | k :: rest =>
    match t with
    | .file c => rw [Node.find?] at hfind; cases hfind
    | .dir es =>
      rw [Node.find?] at hfind
      cases hes : es.find? (fun e => e.1 == k) with
      | none => rw [hes] at hfind; cases hfind
      | some e =>
        rw [hes] at hfind
        have hmem := List.mem_of_find?_eq_some hes
        have hwfe : wfB e.2 := wfEntries_mem es (by rwa [wfB] at hwf) e.1 e.2 hmem
        exact find?_wf rest e.2 nd hwfe hfind

/-! ### The tree copier at directory level, and the scoped installers -/

theorem copyDirFiltered_dirs_mono (node : Node) (s dest : Path) (sk : Bool) (d : Disk)
    (p : Path) (h : d.dirs p = true) : (copyDirFiltered node s dest sk d).dirs p = true := by
  match node with
  | .file c => rwa [copyDirFiltered]
  | .dir es =>
    rw [copyDirFiltered]
    exact copyEntries_dirs_mono es s dest sk _ p (ensureDir_dirs_mono d dest p h)

theorem copyDirFiltered_exists_mono (node : Node) (s dest : Path) (sk : Bool) (d : Disk)
    (p : Path) (h : existsAt d p = true) :
    existsAt (copyDirFiltered node s dest sk d) p = true := by
  match node with
  | .file c => rwa [copyDirFiltered]
  | .dir es =>
    rw [copyDirFiltered]
    exact copyEntries_exists_mono es s dest sk _ p (ensureDir_exists_mono d dest p h)

theorem copyDirFiltered_preserve (node : Node) (s dest : Path) (d : Disk)
    (p : Path) (c : String) (h : d.files p = some c) :
    (copyDirFiltered node s dest true d).files p = some c := by
  match node with
  | .file c' => rwa [copyDirFiltered]
  | .dir es =>
    rw [copyDirFiltered]
    exact copyEntries_preserve es s dest _ p c (by simpa [ensureDir] using h)

theorem copyDirFiltered_covered (node : Node) (s dest : Path) (d : Disk)
    (es : List (String × Node)) (hnode : node = .dir es) :
    (∀ q ∈ dirChain dest, (copyDirFiltered node s dest true d).dirs q = true) ∧
    covers (copyDirFiltered node s dest true d) es dest := by
  subst hnode
  rw [copyDirFiltered]
  constructor
  · intro q hq
    exact copyEntries_dirs_mono es s dest true _ q (ensureDir_chain d dest q hq)
  · exact copyEntries_covers es s dest _

theorem copyDirFiltered_id (node : Node) (s dest : Path) (d : Disk)
    (h : ∀ es, node = .dir es → (∀ q ∈ dirChain dest, d.dirs q = true) ∧ covers d es dest) :
    copyDirFiltered node s dest true d = d := by
  match node with
  | .file c => rw [copyDirFiltered]
  | .dir es =>
    rw [copyDirFiltered]
    obtain ⟨hchain, hcov⟩ := h es rfl
    rw [ensureDir_id d dest hchain]
    exact copyEntries_id es s dest d hcov

theorem optInstall_dirs_mono (o : Option Node) (s dest : Path) (d : Disk) (p : Path)
    (h : d.dirs p = true) :
    (match o with
     | none => d
     | some node => copyDirFiltered node s dest true d).dirs p = true := by
  cases o with
  | none => exact h
  | some node => exact copyDirFiltered_dirs_mono node s dest true d p h

theorem optInstall_exists_mono (o : Option Node) (s dest : Path) (d : Disk) (p : Path)
    (h : existsAt d p = true) :
    existsAt (match o with
      | none => d
      | some node => copyDirFiltered node s dest true d) p = true := by
  cases o with
  | none => exact h
  | some node => exact copyDirFiltered_exists_mono node s dest true d p h

theorem optInstall_covered (o : Option Node) (s dest : Path) (d : Disk)
    (es : List (String × Node)) (ho : o = some (.dir es)) :
    (∀ q ∈ dirChain dest, (match o with
        | none => d
        | some node => copyDirFiltered node s dest true d).dirs q = true) ∧
    covers (match o with
      | none => d
      | some node => copyDirFiltered node s dest true d) es dest := by
  subst ho
  exact copyDirFiltered_covered (.dir es) s dest d es rfl

theorem optInstall_id (o : Option Node) (s dest : Path) (d : Disk)
    (h : ∀ es, o = some (.dir es) → (∀ q ∈ dirChain dest, d.dirs q = true) ∧ covers d es dest) :
    (match o with
     | none => d
     | some node => copyDirFiltered node s dest true d) = d := by
  cases o with
  | none => rfl
  | some node =>
    refine copyDirFiltered_id node s dest d ?_
    intro es hnode
    exact h es (by rw [hnode])

theorem installGlobalMcpServer_dirs_mono (g tp : Path) (t : Node) (d : Disk) (p : Path)
    (h : d.dirs p = true) : (installGlobalMcpServer g tp t d).dirs p = true := by
  rw [installGlobalMcpServer]
  split
  · exact h
  · split
    · exact h
    · split
      · exact h
      · rw [flatCopyFiles_dirs]
        exact ensureDir_dirs_mono d _ p h

theorem installGlobalMcpServer_exists_mono (g tp : Path) (t : Node) (d : Disk) (p : Path)
    (h : existsAt d p = true) : existsAt (installGlobalMcpServer g tp t d) p = true := by
  rw [installGlobalMcpServer]
  split
  · exact h
  · split
    · exact h
    · split
      · exact h
      · exact flatCopyFiles_exists_mono _ _ _ _ p (ensureDir_exists_mono d _ p h)

theorem installGlobalMcpServer_eq_none (g tp : Path) (t : Node) (d : Disk)
    (hfind : t.find? ["mcp-servers", "trellis-context"] = none) :
    installGlobalMcpServer g tp t d = d := by
  rw [installGlobalMcpServer, hfind]

theorem installGlobalMcpServer_eq_file (g tp : Path) (t : Node) (d : Disk) (c : String)
    (hfind : t.find? ["mcp-servers", "trellis-context"] = some (.file c)) :
    installGlobalMcpServer g tp t d = d := by
  rw [installGlobalMcpServer, hfind]
  exact ite_self d

theorem installGlobalMcpServer_eq_marker (g tp : Path) (t : Node) (d : Disk) (node : Node)
    (hfind : t.find? ["mcp-servers", "trellis-context"] = some node)
    (hm : existsAt d (g ++ ["mcp-servers", "trellis-context", "server.py"]) = true) :
    installGlobalMcpServer g tp t d = d := by
  rw [installGlobalMcpServer, hfind]
  exact if_pos hm

theorem installGlobalMcpServer_eq_flat (g tp : Path) (t : Node) (d : Disk)
    (es : List (String × Node))
    (hfind : t.find? ["mcp-servers", "trellis-context"] = some (.dir es))
    (hm : existsAt d (g ++ ["mcp-servers", "trellis-context", "server.py"]) = false) :
    installGlobalMcpServer g tp t d =
      flatCopyFiles es (tp ++ ["mcp-servers", "trellis-context"])
        (g ++ ["mcp-servers", "trellis-context"])
        (ensureDir d (g ++ ["mcp-servers", "trellis-context"])) := by
  rw [installGlobalMcpServer, hfind]
  exact if_neg (by simp [hm])

theorem installGlobalMcpServer_idem (g tp : Path) (t : Node) (d : Disk) (hwf : wfB t = true) :
    (installGlobalMcpServer g tp t (installGlobalMcpServer g tp t d)).files =
      (installGlobalMcpServer g tp t d).files ∧
    (installGlobalMcpServer g tp t (installGlobalMcpServer g tp t d)).dirs =
      (installGlobalMcpServer g tp t d).dirs := by
  cases hfind : t.find? ["mcp-servers", "trellis-context"] with
  | none =>
    rw [installGlobalMcpServer_eq_none g tp t d hfind,
      installGlobalMcpServer_eq_none g tp t d hfind]
    exact ⟨rfl, rfl⟩
  | some node =>
    match node with
    | .file c =>
      rw [installGlobalMcpServer_eq_file g tp t d c hfind,
        installGlobalMcpServer_eq_file g tp t d c hfind]
      exact ⟨rfl, rfl⟩
    | .dir es =>
      by_cases hm : existsAt d (g ++ ["mcp-servers", "trellis-context", "server.py"]) = true
      · rw [installGlobalMcpServer_eq_marker g tp t d _ hfind hm,
          installGlobalMcpServer_eq_marker g tp t d _ hfind hm]
        exact ⟨rfl, rfl⟩
      · have hm' : existsAt d (g ++ ["mcp-servers", "trellis-context", "server.py"]) = false := by
          revert hm
          cases existsAt d (g ++ ["mcp-servers", "trellis-context", "server.py"]) <;> simp
        rw [installGlobalMcpServer_eq_flat g tp t d es hfind hm']
        by_cases hm2 : existsAt (flatCopyFiles es (tp ++ ["mcp-servers", "trellis-context"])
            (g ++ ["mcp-servers", "trellis-context"])
            (ensureDir d (g ++ ["mcp-servers", "trellis-context"])))
            (g ++ ["mcp-servers", "trellis-context", "server.py"]) = true
        · rw [installGlobalMcpServer_eq_marker g tp t _ _ hfind hm2]
          exact ⟨rfl, rfl⟩
        · have hm2' : existsAt (flatCopyFiles es (tp ++ ["mcp-servers", "trellis-context"])
              (g ++ ["mcp-servers", "trellis-context"])
              (ensureDir d (g ++ ["mcp-servers", "trellis-context"])))
              (g ++ ["mcp-servers", "trellis-context", "server.py"]) = false := by
            revert hm2
            cases existsAt (flatCopyFiles es (tp ++ ["mcp-servers", "trellis-context"])
              (g ++ ["mcp-servers", "trellis-context"])
              (ensureDir d (g ++ ["mcp-servers", "trellis-context"])))
              (g ++ ["mcp-servers", "trellis-context", "server.py"]) <;> simp
          rw [installGlobalMcpServer_eq_flat g tp t _ es hfind hm2']
          have hwfu : wfEntries es = true := by
            have hw := find?_wf ["mcp-servers", "trellis-context"] t (.dir es) hwf hfind
            rwa [wfB] at hw
          have hchain : ∀ q ∈ dirChain (g ++ ["mcp-servers", "trellis-context"]),
              (flatCopyFiles es (tp ++ ["mcp-servers", "trellis-context"])
                (g ++ ["mcp-servers", "trellis-context"])
                (ensureDir d (g ++ ["mcp-servers", "trellis-context"]))).dirs q = true := by
            intro q hq
            rw [flatCopyFiles_dirs]
            exact ensureDir_chain d _ q hq
          rw [ensureDir_id _ _ hchain]
          have hcontent : ∀ n c, (n, Node.file c) ∈ es →
              (flatCopyFiles es (tp ++ ["mcp-servers", "trellis-context"])
                (g ++ ["mcp-servers", "trellis-context"])
                (ensureDir d (g ++ ["mcp-servers", "trellis-context"]))).files
                ((g ++ ["mcp-servers", "trellis-context"]) ++ [n]) = some c := by
            intro n c hmem
            exact flatCopyFiles_post es _ _ _ hwfu n c hmem
          exact ⟨flatCopyFiles_id es _ _ _ hcontent, flatCopyFiles_dirs es _ _ _⟩

/-! ### JSON object helpers -/

theorem lookupKey_setKey_self (kvs : List (String × Json)) (k : String) (v : Json) :
    lookupKey (setKey kvs k v) k = some v := by
  match kvs with
  | [] => simp [setKey, lookupKey]
  | (k', w) :: rest =>
    rw [setKey]
    by_cases h : (k' == k) = true
    · rw [if_pos h, lookupKey, if_pos (by simp)]
    · rw [if_neg h, lookupKey, if_neg h]
      exact lookupKey_setKey_self rest k v

theorem lookupKey_setKey_ne (kvs : List (String × Json)) (k k' : String) (v : Json)
    (h : k' ≠ k) : lookupKey (setKey kvs k v) k' = lookupKey kvs k' := by
  match kvs with
  | [] =>
    rw [setKey, lookupKey, lookupKey, if_neg (by simpa using Ne.symm h)]
    rfl
  | (k₀, w) :: rest =>
    rw [setKey]
    by_cases hb : (k₀ == k) = true
    · rw [if_pos hb, lookupKey, lookupKey]
      have hk₀ : k₀ = k := by simpa using hb
      subst hk₀
      rw [if_neg (by simpa using Ne.symm h), if_neg (by simpa using Ne.symm h)]
    · rw [if_neg hb, lookupKey, lookupKey]
      by_cases hq : (k₀ == k') = true
      · rw [if_pos hq, if_pos hq]
      · rw [if_neg hq, if_neg hq]
        exact lookupKey_setKey_ne rest k k' v h

theorem setKey_absent (kvs : List (String × Json)) (k : String) (v : Json)
    (h : lookupKey kvs k = none) : setKey kvs k v = kvs ++ [(k, v)] := by
  match kvs with
  | [] => rfl
  | (k₀, w) :: rest =>
    rw [lookupKey] at h
    by_cases hb : (k₀ == k) = true
    · rw [if_pos hb] at h
      cases h
    · rw [if_neg hb] at h
      rw [setKey, if_neg hb, setKey_absent rest k v h]
      rfl

theorem lookupKey_append_left (xs ys : List (String × Json)) (k : String) (v : Json)
    (h : lookupKey xs k = some v) : lookupKey (xs ++ ys) k = some v := by
  match xs with
  | [] => cases h
  | (k₀, w) :: rest =>
    rw [lookupKey] at h
    rw [List.cons_append, lookupKey]
    by_cases hb : (k₀ == k) = true
    · rw [if_pos hb] at h
      rwa [if_pos hb]
    · rw [if_neg hb] at h
      rw [if_neg hb]
      exact lookupKey_append_left rest ys k v h

theorem lookupKey_append_right (xs ys : List (String × Json)) (k : String)
    (h : lookupKey xs k = none) : lookupKey (xs ++ ys) k = lookupKey ys k := by
  match xs with
  | [] => rfl
  | (k₀, w) :: rest =>
    rw [lookupKey] at h
    by_cases hb : (k₀ == k) = true
    · rw [if_pos hb] at h
      cases h
    · rw [if_neg hb] at h
      rw [List.cons_append, lookupKey, if_neg hb]
      exact lookupKey_append_right rest ys k h

/-! ### The config merger on the canonical states -/

theorem registerGlobalMcp_empty_default (sep : Char) (g : Path) (st : State)
    (h : st.mcpFile = .missing ∨ st.mcpFile = .invalid) :
    registerGlobalMcp sep g st =
      some { st with mcpFile := .valid (Json.obj
        [("mcpServers", Json.obj [("trellis-context", mcpEntry sep g)])]) } := by
  rcases h with h | h <;>
  · rw [registerGlobalMcp, h]
    simp [normalizedConfig, lookupKey, setKey, jsTruthyOpt, jsFalsy]

theorem registerGlobalMcp_present (sep : Char) (g : Path) (st : State)
    (kvs svs e : List (String × Json))
    (h : st.mcpFile = .valid (.obj kvs))
    (hs : lookupKey kvs "mcpServers" = some (.obj svs))
    (ht : lookupKey svs "trellis-context" = some (.obj e)) :
    registerGlobalMcp sep g st = some st := by
  rw [registerGlobalMcp, h]
  simp [normalizedConfig, hs, jsTruthyOpt, jsFalsy, ht]

/-! ### Shape and transport lemmas for the three tree installers -/

theorem installGlobalAgents_eq_none (g tp : Path) (t : Node) (d : Disk)
    (hfind : t.find? ["agents"] = none) : installGlobalAgents g tp t d = d := by
  rw [installGlobalAgents, hfind]

theorem installGlobalAgents_eq_some (g tp : Path) (t : Node) (d : Disk) (node : Node)
    (hfind : t.find? ["agents"] = some node) :
    installGlobalAgents g tp t d =
      copyDirFiltered node (tp ++ ["agents"]) (g ++ ["agents"]) true d := by
  rw [installGlobalAgents, hfind]

theorem installGlobalAgents_dirs_mono (g tp : Path) (t : Node) (d : Disk) (p : Path)
    (h : d.dirs p = true) : (installGlobalAgents g tp t d).dirs p = true := by
  cases hfind : t.find? ["agents"] with
  | none => rwa [installGlobalAgents_eq_none g tp t d hfind]
  | some node =>
    rw [installGlobalAgents_eq_some g tp t d node hfind]
    exact copyDirFiltered_dirs_mono node _ _ true d p h

theorem installGlobalAgents_exists_mono (g tp : Path) (t : Node) (d : Disk) (p : Path)
    (h : existsAt d p = true) : existsAt (installGlobalAgents g tp t d) p = true := by
  cases hfind : t.find? ["agents"] with
  | none => rwa [installGlobalAgents_eq_none g tp t d hfind]
  | some node =>
    rw [installGlobalAgents_eq_some g tp t d node hfind]
    exact copyDirFiltered_exists_mono node _ _ true d p h

theorem installGlobalAgents_covered (g tp : Path) (t : Node) (d : Disk) (es : List (String × Node))
    (hfind : t.find? ["agents"] = some (.dir es)) :
    (∀ q ∈ dirChain (g ++ ["agents"]), (installGlobalAgents g tp t d).dirs q = true) ∧
    covers (installGlobalAgents g tp t d) es (g ++ ["agents"]) := by
  rw [installGlobalAgents_eq_some g tp t d (.dir es) hfind]
  exact copyDirFiltered_covered (.dir es) _ _ d es rfl

theorem installGlobalAgents_id (g tp : Path) (t : Node) (d : Disk)
    (h : ∀ es, t.find? ["agents"] = some (.dir es) →
      (∀ q ∈ dirChain (g ++ ["agents"]), d.dirs q = true) ∧ covers d es (g ++ ["agents"])) :
    installGlobalAgents g tp t d = d := by
  cases hfind : t.find? ["agents"] with
  | none => rw [installGlobalAgents_eq_none g tp t d hfind]
  | some node =>
    rw [installGlobalAgents_eq_some g tp t d node hfind]
    refine copyDirFiltered_id node _ _ d ?_
    intro es hnode
    exact h es (by rw [hfind, hnode])

theorem installGlobalHooks_eq_none (g tp : Path) (t : Node) (d : Disk)
    (hfind : t.find? ["hooks"] = none) : installGlobalHooks g tp t d = d := by
  rw [installGlobalHooks, hfind]

theorem installGlobalHooks_eq_some (g tp : Path) (t : Node) (d : Disk) (node : Node)
    (hfind : t.find? ["hooks"] = some node) :
    installGlobalHooks g tp t d =
      copyDirFiltered node (tp ++ ["hooks"]) (g ++ ["hooks"]) true d := by
  rw [installGlobalHooks, hfind]

theorem installGlobalHooks_dirs_mono (g tp : Path) (t : Node) (d : Disk) (p : Path)
    (h : d.dirs p = true) : (installGlobalHooks g tp t d).dirs p = true := by
  cases hfind : t.find? ["hooks"] with
  | none => rwa [installGlobalHooks_eq_none g tp t d hfind]
  | some node =>
    rw [installGlobalHooks_eq_some g tp t d node hfind]
    exact copyDirFiltered_dirs_mono node _ _ true d p h

theorem installGlobalHooks_exists_mono (g tp : Path) (t : Node) (d : Disk) (p : Path)
    (h : existsAt d p = true) : existsAt (installGlobalHooks g tp t d) p = true := by
  cases hfind : t.find? ["hooks"] with
  | none => rwa [installGlobalHooks_eq_none g tp t d hfind]
  | some node =>
    rw [installGlobalHooks_eq_some g tp t d node hfind]
    exact copyDirFiltered_exists_mono node _ _ true d p h

theorem installGlobalHooks_covered (g tp : Path) (t : Node) (d : Disk) (es : List (String × Node))
    (hfind : t.find? ["hooks"] = some (.dir es)) :
    (∀ q ∈ dirChain (g ++ ["hooks"]), (installGlobalHooks g tp t d).dirs q = true) ∧
    covers (installGlobalHooks g tp t d) es (g ++ ["hooks"]) := by
  rw [installGlobalHooks_eq_some g tp t d (.dir es) hfind]
  exact copyDirFiltered_covered (.dir es) _ _ d es rfl

theorem installGlobalHooks_id (g tp : Path) (t : Node) (d : Disk)
    (h : ∀ es, t.find? ["hooks"] = some (.dir es) →
      (∀ q ∈ dirChain (g ++ ["hooks"]), d.dirs q = true) ∧ covers d es (g ++ ["hooks"])) :
    installGlobalHooks g tp t d = d := by
  cases hfind : t.find? ["hooks"] with
  | none => rw [installGlobalHooks_eq_none g tp t d hfind]
  | some node =>
    rw [installGlobalHooks_eq_some g tp t d node hfind]
    refine copyDirFiltered_id node _ _ d ?_
    intro es hnode
    exact h es (by rw [hfind, hnode])

theorem installGlobalCommands_eq_none (g tp : Path) (t : Node) (d : Disk)
    (hfind : t.find? ["commands"] = none) : installGlobalCommands g tp t d = d := by
  rw [installGlobalCommands, hfind]

theorem installGlobalCommands_eq_some (g tp : Path) (t : Node) (d : Disk) (node : Node)
    (hfind : t.find? ["commands"] = some node) :
    installGlobalCommands g tp t d =
      copyDirFiltered node (tp ++ ["commands"]) (g ++ ["commands"]) true d := by
  rw [installGlobalCommands, hfind]

theorem installGlobalCommands_dirs_mono (g tp : Path) (t : Node) (d : Disk) (p : Path)
    (h : d.dirs p = true) : (installGlobalCommands g tp t d).dirs p = true := by
  cases hfind : t.find? ["commands"] with
  | none => rwa [installGlobalCommands_eq_none g tp t d hfind]
  | some node =>
    rw [installGlobalCommands_eq_some g tp t d node hfind]
    exact copyDirFiltered_dirs_mono node _ _ true d p h

theorem installGlobalCommands_exists_mono (g tp : Path) (t : Node) (d : Disk) (p : Path)
    (h : existsAt d p = true) : existsAt (installGlobalCommands g tp t d) p = true := by
  cases hfind : t.find? ["commands"] with
  | none => rwa [installGlobalCommands_eq_none g tp t d hfind]
  | some node =>
    rw [installGlobalCommands_eq_some g tp t d node hfind]
    exact copyDirFiltered_exists_mono node _ _ true d p h

theorem installGlobalCommands_covered (g tp : Path) (t : Node) (d : Disk) (es : List (String × Node))
    (hfind : t.find? ["commands"] = some (.dir es)) :
    (∀ q ∈ dirChain (g ++ ["commands"]), (installGlobalCommands g tp t d).dirs q = true) ∧
    covers (installGlobalCommands g tp t d) es (g ++ ["commands"]) := by
  rw [installGlobalCommands_eq_some g tp t d (.dir es) hfind]
  exact copyDirFiltered_covered (.dir es) _ _ d es rfl

theorem installGlobalCommands_id (g tp : Path) (t : Node) (d : Disk)
    (h : ∀ es, t.find? ["commands"] = some (.dir es) →
      (∀ q ∈ dirChain (g ++ ["commands"]), d.dirs q = true) ∧ covers d es (g ++ ["commands"])) :
    installGlobalCommands g tp t d = d := by
  cases hfind : t.find? ["commands"] with
  | none => rw [installGlobalCommands_eq_none g tp t d hfind]
  | some node =>
    rw [installGlobalCommands_eq_some g tp t d node hfind]
    refine copyDirFiltered_id node _ _ d ?_
    intro es hnode
    exact h es (by rw [hfind, hnode])

/-! ### The orchestrator on the two canonical config states -/

theorem configureCursor_missing (sep : Char) (userHome cwd templatePath : Path) (t : Node)
    (st : State) (h : st.mcpFile = .missing ∨ st.mcpFile = .invalid) :
    configureCursor sep userHome cwd templatePath t st = some
      { disk := installGlobalMcpServer (userHome ++ [".cursor"]) templatePath t (installGlobalCommands (userHome ++ [".cursor"]) templatePath t (installGlobalHooks (userHome ++ [".cursor"]) templatePath t (installGlobalAgents (userHome ++ [".cursor"]) templatePath t (ensureDir (ensureDir st.disk (userHome ++ [".cursor"])) (cwd ++ [".cursor"]))))),
        mcpFile := .valid (Json.obj [("mcpServers",
          Json.obj [("trellis-context", mcpEntry sep (userHome ++ [".cursor"]))])]),
        hooksFile := some (hooksConfig sep (userHome ++ [".cursor"])) } := by
  simp only [configureCursor]
  rw [registerGlobalMcp_empty_default sep (userHome ++ [".cursor"])
    { st with disk := installGlobalMcpServer (userHome ++ [".cursor"]) templatePath t (installGlobalCommands (userHome ++ [".cursor"]) templatePath t (installGlobalHooks (userHome ++ [".cursor"]) templatePath t (installGlobalAgents (userHome ++ [".cursor"]) templatePath t (ensureDir (ensureDir st.disk (userHome ++ [".cursor"])) (cwd ++ [".cursor"]))))) } h]
  rfl

theorem configureCursor_installed (sep : Char) (userHome cwd templatePath : Path) (t : Node)
    (st : State) (kvs svs e : List (String × Json))
    (h : st.mcpFile = .valid (.obj kvs))
    (hs : lookupKey kvs "mcpServers" = some (.obj svs))
    (ht : lookupKey svs "trellis-context" = some (.obj e)) :
    configureCursor sep userHome cwd templatePath t st = some
      { disk := installGlobalMcpServer (userHome ++ [".cursor"]) templatePath t (installGlobalCommands (userHome ++ [".cursor"]) templatePath t (installGlobalHooks (userHome ++ [".cursor"]) templatePath t (installGlobalAgents (userHome ++ [".cursor"]) templatePath t (ensureDir (ensureDir st.disk (userHome ++ [".cursor"])) (cwd ++ [".cursor"]))))),
        mcpFile := st.mcpFile,
        hooksFile := some (hooksConfig sep (userHome ++ [".cursor"])) } := by
  simp only [configureCursor]
  rw [registerGlobalMcp_present sep (userHome ++ [".cursor"])
    { st with disk := installGlobalMcpServer (userHome ++ [".cursor"]) templatePath t (installGlobalCommands (userHome ++ [".cursor"]) templatePath t (installGlobalHooks (userHome ++ [".cursor"]) templatePath t (installGlobalAgents (userHome ++ [".cursor"]) templatePath t (ensureDir (ensureDir st.disk (userHome ++ [".cursor"])) (cwd ++ [".cursor"]))))) } kvs svs e h hs ht]
  rfl

set_option maxHeartbeats 1000000 in
theorem configureCursor_run_twice (sep : Char) (userHome cwd templatePath : Path) (t : Node)
    (hwf : wfB t = true) :
    ∃ s1 s2,
      configureCursor sep userHome cwd templatePath t emptyState = some s1 ∧
      configureCursor sep userHome cwd templatePath t s1 = some s2 ∧
      s2.disk.files = s1.disk.files ∧
      s2.disk.dirs = s1.disk.dirs ∧
      s2.mcpFile = s1.mcpFile ∧
      s2.hooksFile = s1.hooksFile ∧
      s1.hooksFile = some (hooksConfig sep (userHome ++ [".cursor"])) := by
  have hchain_g : ∀ q ∈ dirChain (userHome ++ [".cursor"]), (installGlobalMcpServer (userHome ++ [".cursor"]) templatePath t (installGlobalCommands (userHome ++ [".cursor"]) templatePath t (installGlobalHooks (userHome ++ [".cursor"]) templatePath t (installGlobalAgents (userHome ++ [".cursor"]) templatePath t (ensureDir (ensureDir emptyState.disk (userHome ++ [".cursor"])) (cwd ++ [".cursor"])))))).dirs q = true := by
    intro q hq
    refine installGlobalMcpServer_dirs_mono _ _ t _ q ?_
    refine installGlobalCommands_dirs_mono _ _ t _ q ?_
    refine installGlobalHooks_dirs_mono _ _ t _ q ?_
    refine installGlobalAgents_dirs_mono _ _ t _ q ?_
    exact ensureDir_dirs_mono _ _ q (ensureDir_chain _ _ q hq)
  have hchain_pj : ∀ q ∈ dirChain (cwd ++ [".cursor"]), (installGlobalMcpServer (userHome ++ [".cursor"]) templatePath t (installGlobalCommands (userHome ++ [".cursor"]) templatePath t (installGlobalHooks (userHome ++ [".cursor"]) templatePath t (installGlobalAgents (userHome ++ [".cursor"]) templatePath t (ensureDir (ensureDir emptyState.disk (userHome ++ [".cursor"])) (cwd ++ [".cursor"])))))).dirs q = true := by
    intro q hq
    refine installGlobalMcpServer_dirs_mono _ _ t _ q ?_
    refine installGlobalCommands_dirs_mono _ _ t _ q ?_
    refine installGlobalHooks_dirs_mono _ _ t _ q ?_
    refine installGlobalAgents_dirs_mono _ _ t _ q ?_
    exact ensureDir_chain _ _ q hq
  have hE1 : ensureDir (installGlobalMcpServer (userHome ++ [".cursor"]) templatePath t (installGlobalCommands (userHome ++ [".cursor"]) templatePath t (installGlobalHooks (userHome ++ [".cursor"]) templatePath t (installGlobalAgents (userHome ++ [".cursor"]) templatePath t (ensureDir (ensureDir emptyState.disk (userHome ++ [".cursor"])) (cwd ++ [".cursor"])))))) (userHome ++ [".cursor"]) = (installGlobalMcpServer (userHome ++ [".cursor"]) templatePath t (installGlobalCommands (userHome ++ [".cursor"]) templatePath t (installGlobalHooks (userHome ++ [".cursor"]) templatePath t (installGlobalAgents (userHome ++ [".cursor"]) templatePath t (ensureDir (ensureDir emptyState.disk (userHome ++ [".cursor"])) (cwd ++ [".cursor"])))))) := ensureDir_id _ _ hchain_g
  have hE2 : ensureDir (installGlobalMcpServer (userHome ++ [".cursor"]) templatePath t (installGlobalCommands (userHome ++ [".cursor"]) templatePath t (installGlobalHooks (userHome ++ [".cursor"]) templatePath t (installGlobalAgents (userHome ++ [".cursor"]) templatePath t (ensureDir (ensureDir emptyState.disk (userHome ++ [".cursor"])) (cwd ++ [".cursor"])))))) (cwd ++ [".cursor"]) = (installGlobalMcpServer (userHome ++ [".cursor"]) templatePath t (installGlobalCommands (userHome ++ [".cursor"]) templatePath t (installGlobalHooks (userHome ++ [".cursor"]) templatePath t (installGlobalAgents (userHome ++ [".cursor"]) templatePath t (ensureDir (ensureDir emptyState.disk (userHome ++ [".cursor"])) (cwd ++ [".cursor"])))))) := ensureDir_id _ _ hchain_pj
  have hAid : installGlobalAgents (userHome ++ [".cursor"]) templatePath t (installGlobalMcpServer (userHome ++ [".cursor"]) templatePath t (installGlobalCommands (userHome ++ [".cursor"]) templatePath t (installGlobalHooks (userHome ++ [".cursor"]) templatePath t (installGlobalAgents (userHome ++ [".cursor"]) templatePath t (ensureDir (ensureDir emptyState.disk (userHome ++ [".cursor"])) (cwd ++ [".cursor"])))))) = (installGlobalMcpServer (userHome ++ [".cursor"]) templatePath t (installGlobalCommands (userHome ++ [".cursor"]) templatePath t (installGlobalHooks (userHome ++ [".cursor"]) templatePath t (installGlobalAgents (userHome ++ [".cursor"]) templatePath t (ensureDir (ensureDir emptyState.disk (userHome ++ [".cursor"])) (cwd ++ [".cursor"])))))) := by
    refine installGlobalAgents_id _ _ t _ ?_
    intro es hfind
    obtain ⟨hch, hcov⟩ := installGlobalAgents_covered (userHome ++ [".cursor"]) templatePath t (ensureDir (ensureDir emptyState.disk (userHome ++ [".cursor"])) (cwd ++ [".cursor"])) es hfind
    constructor
    · intro q hq
      exact installGlobalMcpServer_dirs_mono _ _ t _ q
        (installGlobalCommands_dirs_mono _ _ t _ q
          (installGlobalHooks_dirs_mono _ _ t _ q (hch q hq)))
    · refine covers_mono es _ (installGlobalCommands (userHome ++ [".cursor"]) templatePath t (installGlobalHooks (userHome ++ [".cursor"]) templatePath t (installGlobalAgents (userHome ++ [".cursor"]) templatePath t (ensureDir (ensureDir emptyState.disk (userHome ++ [".cursor"])) (cwd ++ [".cursor"]))))) (installGlobalMcpServer (userHome ++ [".cursor"]) templatePath t (installGlobalCommands (userHome ++ [".cursor"]) templatePath t (installGlobalHooks (userHome ++ [".cursor"]) templatePath t (installGlobalAgents (userHome ++ [".cursor"]) templatePath t (ensureDir (ensureDir emptyState.disk (userHome ++ [".cursor"])) (cwd ++ [".cursor"]))))))
        (fun p hp => installGlobalMcpServer_exists_mono _ _ t _ p hp)
        (fun p hp => installGlobalMcpServer_dirs_mono _ _ t _ p hp) ?_
      refine covers_mono es _ (installGlobalHooks (userHome ++ [".cursor"]) templatePath t (installGlobalAgents (userHome ++ [".cursor"]) templatePath t (ensureDir (ensureDir emptyState.disk (userHome ++ [".cursor"])) (cwd ++ [".cursor"])))) (installGlobalCommands (userHome ++ [".cursor"]) templatePath t (installGlobalHooks (userHome ++ [".cursor"]) templatePath t (installGlobalAgents (userHome ++ [".cursor"]) templatePath t (ensureDir (ensureDir emptyState.disk (userHome ++ [".cursor"])) (cwd ++ [".cursor"])))))
        (fun p hp => installGlobalCommands_exists_mono _ _ t _ p hp)
        (fun p hp => installGlobalCommands_dirs_mono _ _ t _ p hp) ?_
      refine covers_mono es _ (installGlobalAgents (userHome ++ [".cursor"]) templatePath t (ensureDir (ensureDir emptyState.disk (userHome ++ [".cursor"])) (cwd ++ [".cursor"]))) (installGlobalHooks (userHome ++ [".cursor"]) templatePath t (installGlobalAgents (userHome ++ [".cursor"]) templatePath t (ensureDir (ensureDir emptyState.disk (userHome ++ [".cursor"])) (cwd ++ [".cursor"]))))
        (fun p hp => installGlobalHooks_exists_mono _ _ t _ p hp)
        (fun p hp => installGlobalHooks_dirs_mono _ _ t _ p hp) ?_
      exact hcov
  have hHid : installGlobalHooks (userHome ++ [".cursor"]) templatePath t (installGlobalMcpServer (userHome ++ [".cursor"]) templatePath t (installGlobalCommands (userHome ++ [".cursor"]) templatePath t (installGlobalHooks (userHome ++ [".cursor"]) templatePath t (installGlobalAgents (userHome ++ [".cursor"]) templatePath t (ensureDir (ensureDir emptyState.disk (userHome ++ [".cursor"])) (cwd ++ [".cursor"])))))) = (installGlobalMcpServer (userHome ++ [".cursor"]) templatePath t (installGlobalCommands (userHome ++ [".cursor"]) templatePath t (installGlobalHooks (userHome ++ [".cursor"]) templatePath t (installGlobalAgents (userHome ++ [".cursor"]) templatePath t (ensureDir (ensureDir emptyState.disk (userHome ++ [".cursor"])) (cwd ++ [".cursor"])))))) := by
    refine installGlobalHooks_id _ _ t _ ?_
    intro es hfind
    obtain ⟨hch, hcov⟩ := installGlobalHooks_covered (userHome ++ [".cursor"]) templatePath t (installGlobalAgents (userHome ++ [".cursor"]) templatePath t (ensureDir (ensureDir emptyState.disk (userHome ++ [".cursor"])) (cwd ++ [".cursor"]))) es hfind
    constructor
    · intro q hq
      exact installGlobalMcpServer_dirs_mono _ _ t _ q
        (installGlobalCommands_dirs_mono _ _ t _ q (hch q hq))
    · refine covers_mono es _ (installGlobalCommands (userHome ++ [".cursor"]) templatePath t (installGlobalHooks (userHome ++ [".cursor"]) templatePath t (installGlobalAgents (userHome ++ [".cursor"]) templatePath t (ensureDir (ensureDir emptyState.disk (userHome ++ [".cursor"])) (cwd ++ [".cursor"]))))) (installGlobalMcpServer (userHome ++ [".cursor"]) templatePath t (installGlobalCommands (userHome ++ [".cursor"]) templatePath t (installGlobalHooks (userHome ++ [".cursor"]) templatePath t (installGlobalAgents (userHome ++ [".cursor"]) templatePath t (ensureDir (ensureDir emptyState.disk (userHome ++ [".cursor"])) (cwd ++ [".cursor"]))))))
        (fun p hp => installGlobalMcpServer_exists_mono _ _ t _ p hp)
        (fun p hp => installGlobalMcpServer_dirs_mono _ _ t _ p hp) ?_
      refine covers_mono es _ (installGlobalHooks (userHome ++ [".cursor"]) templatePath t (installGlobalAgents (userHome ++ [".cursor"]) templatePath t (ensureDir (ensureDir emptyState.disk (userHome ++ [".cursor"])) (cwd ++ [".cursor"])))) (installGlobalCommands (userHome ++ [".cursor"]) templatePath t (installGlobalHooks (userHome ++ [".cursor"]) templatePath t (installGlobalAgents (userHome ++ [".cursor"]) templatePath t (ensureDir (ensureDir emptyState.disk (userHome ++ [".cursor"])) (cwd ++ [".cursor"])))))
        (fun p hp => installGlobalCommands_exists_mono _ _ t _ p hp)
        (fun p hp => installGlobalCommands_dirs_mono _ _ t _ p hp) ?_
      exact hcov
  have hCid : installGlobalCommands (userHome ++ [".cursor"]) templatePath t (installGlobalMcpServer (userHome ++ [".cursor"]) templatePath t (installGlobalCommands (userHome ++ [".cursor"]) templatePath t (installGlobalHooks (userHome ++ [".cursor"]) templatePath t (installGlobalAgents (userHome ++ [".cursor"]) templatePath t (ensureDir (ensureDir emptyState.disk (userHome ++ [".cursor"])) (cwd ++ [".cursor"])))))) = (installGlobalMcpServer (userHome ++ [".cursor"]) templatePath t (installGlobalCommands (userHome ++ [".cursor"]) templatePath t (installGlobalHooks (userHome ++ [".cursor"]) templatePath t (installGlobalAgents (userHome ++ [".cursor"]) templatePath t (ensureDir (ensureDir emptyState.disk (userHome ++ [".cursor"])) (cwd ++ [".cursor"])))))) := by
    refine installGlobalCommands_id _ _ t _ ?_
    intro es hfind
    obtain ⟨hch, hcov⟩ := installGlobalCommands_covered (userHome ++ [".cursor"]) templatePath t (installGlobalHooks (userHome ++ [".cursor"]) templatePath t (installGlobalAgents (userHome ++ [".cursor"]) templatePath t (ensureDir (ensureDir emptyState.disk (userHome ++ [".cursor"])) (cwd ++ [".cursor"])))) es hfind
    constructor
    · intro q hq
      exact installGlobalMcpServer_dirs_mono _ _ t _ q (hch q hq)
    · refine covers_mono es _ (installGlobalCommands (userHome ++ [".cursor"]) templatePath t (installGlobalHooks (userHome ++ [".cursor"]) templatePath t (installGlobalAgents (userHome ++ [".cursor"]) templatePath t (ensureDir (ensureDir emptyState.disk (userHome ++ [".cursor"])) (cwd ++ [".cursor"]))))) (installGlobalMcpServer (userHome ++ [".cursor"]) templatePath t (installGlobalCommands (userHome ++ [".cursor"]) templatePath t (installGlobalHooks (userHome ++ [".cursor"]) templatePath t (installGlobalAgents (userHome ++ [".cursor"]) templatePath t (ensureDir (ensureDir emptyState.disk (userHome ++ [".cursor"])) (cwd ++ [".cursor"]))))))
        (fun p hp => installGlobalMcpServer_exists_mono _ _ t _ p hp)
        (fun p hp => installGlobalMcpServer_dirs_mono _ _ t _ p hp) ?_
      exact hcov
  have hMfd := installGlobalMcpServer_idem (userHome ++ [".cursor"]) templatePath t (installGlobalCommands (userHome ++ [".cursor"]) templatePath t (installGlobalHooks (userHome ++ [".cursor"]) templatePath t (installGlobalAgents (userHome ++ [".cursor"]) templatePath t (ensureDir (ensureDir emptyState.disk (userHome ++ [".cursor"])) (cwd ++ [".cursor"]))))) hwf
  refine ⟨_, _, configureCursor_missing sep userHome cwd templatePath t emptyState (Or.inl rfl),
    configureCursor_installed sep userHome cwd templatePath t _
      [("mcpServers", Json.obj [("trellis-context", mcpEntry sep (userHome ++ [".cursor"]))])]
      [("trellis-context", mcpEntry sep (userHome ++ [".cursor"]))]
      [("command", Json.str "python"),
        ("args", Json.arr [Json.str (normalizeSlashes
          (render sep ((userHome ++ [".cursor"]) ++ ["mcp-servers", "trellis-context", "server.py"])))])]
      rfl (by simp [lookupKey]) (by simp [lookupKey, mcpEntry]), ?_, ?_, rfl, rfl, rfl⟩
  · show (installGlobalMcpServer (userHome ++ [".cursor"]) templatePath t (installGlobalCommands (userHome ++ [".cursor"]) templatePath t (installGlobalHooks (userHome ++ [".cursor"]) templatePath t (installGlobalAgents (userHome ++ [".cursor"]) templatePath t (ensureDir (ensureDir (installGlobalMcpServer (userHome ++ [".cursor"]) templatePath t (installGlobalCommands (userHome ++ [".cursor"]) templatePath t (installGlobalHooks (userHome ++ [".cursor"]) templatePath t (installGlobalAgents (userHome ++ [".cursor"]) templatePath t (ensureDir (ensureDir emptyState.disk (userHome ++ [".cursor"])) (cwd ++ [".cursor"])))))) (userHome ++ [".cursor"])) (cwd ++ [".cursor"])))))).files = (installGlobalMcpServer (userHome ++ [".cursor"]) templatePath t (installGlobalCommands (userHome ++ [".cursor"]) templatePath t (installGlobalHooks (userHome ++ [".cursor"]) templatePath t (installGlobalAgents (userHome ++ [".cursor"]) templatePath t (ensureDir (ensureDir emptyState.disk (userHome ++ [".cursor"])) (cwd ++ [".cursor"])))))).files
    rw [hE1, hE2, hAid, hHid, hCid]
    exact hMfd.1
  · show (installGlobalMcpServer (userHome ++ [".cursor"]) templatePath t (installGlobalCommands (userHome ++ [".cursor"]) templatePath t (installGlobalHooks (userHome ++ [".cursor"]) templatePath t (installGlobalAgents (userHome ++ [".cursor"]) templatePath t (ensureDir (ensureDir (installGlobalMcpServer (userHome ++ [".cursor"]) templatePath t (installGlobalCommands (userHome ++ [".cursor"]) templatePath t (installGlobalHooks (userHome ++ [".cursor"]) templatePath t (installGlobalAgents (userHome ++ [".cursor"]) templatePath t (ensureDir (ensureDir emptyState.disk (userHome ++ [".cursor"])) (cwd ++ [".cursor"])))))) (userHome ++ [".cursor"])) (cwd ++ [".cursor"])))))).dirs = (installGlobalMcpServer (userHome ++ [".cursor"]) templatePath t (installGlobalCommands (userHome ++ [".cursor"]) templatePath t (installGlobalHooks (userHome ++ [".cursor"]) templatePath t (installGlobalAgents (userHome ++ [".cursor"]) templatePath t (ensureDir (ensureDir emptyState.disk (userHome ++ [".cursor"])) (cwd ++ [".cursor"])))))).dirs
    rw [hE1, hE2, hAid, hHid, hCid]
    exact hMfd.2

/-! ### String facts for path normalization -/

theorem data_append (a b : String) : (a ++ b).data = a.data ++ b.data := by
  cases a
  cases b
  rfl

theorem hasBackslash_append (a b : String) :
    hasBackslash (a ++ b) = (hasBackslash a || hasBackslash b) := by
  rw [hasBackslash, data_append, List.any_append]
  rfl

theorem normalizeSlashes_clean (s : String) : hasBackslash (normalizeSlashes s) = false := by
  rw [hasBackslash, normalizeSlashes]
  show (s.data.map _).any _ = false
  rw [List.any_map]
  rw [Bool.eq_false_iff]
  intro hany
  obtain ⟨c, hcmem, hcc⟩ := List.any_eq_true.mp hany
  simp only [Function.comp] at hcc
  by_cases hc : (c == '\\') = true
  · rw [if_pos hc] at hcc
    exact absurd hcc (by decide)
  · rw [if_neg hc] at hcc
    exact hc hcc

/-! ### Claim theorems -/

/-- C5: for every config document whose `mcpServers` object already holds
an entry keyed `"trellis-context"` (an entry is an object, per the config
schema — including one a user hand-edited), `registerGlobalMcp` is a
no-op: the state, and hence the document, is returned unchanged and
nothing is written. -/
theorem register_existing_entry_noop (sep : Char) (g : Path) (st : State)
    (kvs svs e : List (String × Json))
    (h : st.mcpFile = .valid (.obj kvs))
    (hs : lookupKey kvs "mcpServers" = some (.obj svs))
    (ht : lookupKey svs "trellis-context" = some (.obj e)) :
    registerGlobalMcp sep g st = some st :=
  registerGlobalMcp_present sep g st kvs svs e h hs ht

theorem register_existing_entry_noop_witness :
    stC5.mcpFile = .valid (.obj [("mcpServers", .obj [("trellis-context",
      .obj [("command", .str "my-custom-python"), ("args", .arr [.str "edited.py"])])])]) ∧
    registerGlobalMcp '/' ["home", ".cursor"] stC5 = some stC5 :=
  ⟨rfl, register_existing_entry_noop '/' ["home", ".cursor"] stC5
    [("mcpServers", .obj [("trellis-context",
      .obj [("command", .str "my-custom-python"), ("args", .arr [.str "edited.py"])])])]
    [("trellis-context", .obj [("command", .str "my-custom-python"),
      ("args", .arr [.str "edited.py"])])]
    [("command", .str "my-custom-python"), ("args", .arr [.str "edited.py"])]
    rfl (by simp [lookupKey]) (by simp [lookupKey])⟩

/-- C7: whenever the config file is missing or fails to parse, the merger
never propagates the failure: it substitutes the empty default, the
registration succeeds (`some`), and the resulting document is exactly
`{"mcpServers": {"trellis-context": <entry>}}` — one new entry. -/
theorem register_corrupt_or_missing_recovers (sep : Char) (g : Path) (st : State)
    (h : st.mcpFile = .missing ∨ st.mcpFile = .invalid) :
    registerGlobalMcp sep g st = some { st with mcpFile := .valid (Json.obj
      [("mcpServers", Json.obj [("trellis-context", mcpEntry sep g)])]) } :=
  registerGlobalMcp_empty_default sep g st h

theorem register_corrupt_or_missing_recovers_witness :
    (stC7.mcpFile = .missing ∨ stC7.mcpFile = .invalid) ∧
    registerGlobalMcp '/' ["home", ".cursor"] stC7 = some { stC7 with
      mcpFile := .valid (Json.obj [("mcpServers",
        Json.obj [("trellis-context", mcpEntry '/' ["home", ".cursor"])])]) } :=
  ⟨Or.inr rfl,
    register_corrupt_or_missing_recovers '/' ["home", ".cursor"] stC7 (Or.inr rfl)⟩

/-- C9: the Project Activation Writer always overwrites the activation
file — whatever it held before — with the deterministic document of
version 1, a startup binding invoking the global `session-start.py` by its
slash-normalized absolute path, and a completion-gated binding with
matcher `"check"` and `loop_limit` 5; it touches nothing else in the
state. -/
theorem project_hooks_regenerated (sep : Char) (projectCursorDir globalCursorDir : Path)
    (st : State) :
    (createProjectHooksJson sep projectCursorDir globalCursorDir st).hooksFile =
      some (Json.obj [
        ("version", Json.num 1),
        ("hooks", Json.obj [
          ("sessionStart", Json.arr [Json.obj [("command", Json.str ("python \"" ++
            normalizeSlashes (render sep (globalCursorDir ++ ["hooks"])) ++
            "/session-start.py\""))]]),
          ("subagentStop", Json.arr [Json.obj [
            ("matcher", Json.str "check"),
            ("command", Json.str ("python \"" ++
              normalizeSlashes (render sep (globalCursorDir ++ ["hooks"])) ++
              "/ralph-loop.py\"")),
            ("loop_limit", Json.num 5)]])])]) ∧
    (createProjectHooksJson sep projectCursorDir globalCursorDir st).disk = st.disk ∧
    (createProjectHooksJson sep projectCursorDir globalCursorDir st).mcpFile = st.mcpFile :=
  ⟨rfl, rfl, rfl⟩

/-- C8: for every host path separator (backslash included) and every
global directory, the path-bearing strings embedded in the written
documents — both hook command strings in the project `hooks.json` and the
`args` path of the `mcp.json` entry — contain no backslash at all. -/
theorem written_paths_forward_slashes (sep : Char) (g : Path) :
    ∃ c1 c2 ap,
      hooksConfig sep g = Json.obj [
        ("version", Json.num 1),
        ("hooks", Json.obj [
          ("sessionStart", Json.arr [Json.obj [("command", Json.str c1)]]),
          ("subagentStop", Json.arr [Json.obj [("matcher", Json.str "check"),
            ("command", Json.str c2), ("loop_limit", Json.num 5)]])])] ∧
      mcpEntry sep g = Json.obj [("command", Json.str "python"),
        ("args", Json.arr [Json.str ap])] ∧
      hasBackslash c1 = false ∧ hasBackslash c2 = false ∧ hasBackslash ap = false := by
  refine ⟨_, _, _, rfl, rfl, ?_, ?_, ?_⟩
  · rw [hasBackslash_append, hasBackslash_append, normalizeSlashes_clean]
    decide
  · rw [hasBackslash_append, hasBackslash_append, normalizeSlashes_clean]
    decide
  · exact normalizeSlashes_clean _

theorem registerGlobalMcp_insert (sep : Char) (g : Path) (st : State)
    (kvs svs : List (String × Json))
    (h : st.mcpFile = .valid (.obj kvs))
    (hs : lookupKey kvs "mcpServers" = some (.obj svs))
    (hno : jsTruthyOpt (lookupKey svs "trellis-context") = false) :
    registerGlobalMcp sep g st = some { st with mcpFile := .valid (.obj
      (setKey kvs "mcpServers" (.obj (setKey svs "trellis-context" (mcpEntry sep g))))) } := by
  have htru : jsTruthyOpt (some (Json.obj svs)) = true := rfl
  rw [registerGlobalMcp, h]
  simp [normalizedConfig, hs, htru, hno]

/-- C6: registering `"trellis-context"` into a document already holding an
unrelated `"other-svc"` entry keeps both entries — `"other-svc"`'s whole
value (command, args, env) is untouched, `"trellis-context"` is appended —
and a second registration changes nothing at all. -/
theorem register_preserves_foreign_entries (sep : Char) (g : Path) (st : State)
    (kvs svs : List (String × Json)) (v : Json)
    (h : st.mcpFile = .valid (.obj kvs))
    (hs : lookupKey kvs "mcpServers" = some (.obj svs))
    (hother : lookupKey svs "other-svc" = some v)
    (hno : lookupKey svs "trellis-context" = none) :
    ∃ st', registerGlobalMcp sep g st = some st' ∧
      st'.mcpFile = .valid (.obj (setKey kvs "mcpServers"
        (.obj (svs ++ [("trellis-context", mcpEntry sep g)])))) ∧
      lookupKey (svs ++ [("trellis-context", mcpEntry sep g)]) "other-svc" = some v ∧
      lookupKey (svs ++ [("trellis-context", mcpEntry sep g)]) "trellis-context" =
        some (mcpEntry sep g) ∧
      registerGlobalMcp sep g st' = some st' := by
  have hnoT : jsTruthyOpt (lookupKey svs "trellis-context") = false := by rw [hno]; rfl
  have hreg := registerGlobalMcp_insert sep g st kvs svs h hs hnoT
  rw [setKey_absent svs "trellis-context" (mcpEntry sep g) hno] at hreg
  have hlookT : lookupKey (svs ++ [("trellis-context", mcpEntry sep g)]) "trellis-context" =
      some (mcpEntry sep g) := by
    rw [lookupKey_append_right svs _ _ hno]
    simp [lookupKey]
  refine ⟨_, hreg, rfl, ?_, hlookT, ?_⟩
  · exact lookupKey_append_left svs _ "other-svc" v hother
  · refine registerGlobalMcp_present sep g _
      (setKey kvs "mcpServers" (.obj (svs ++ [("trellis-context", mcpEntry sep g)])))
      (svs ++ [("trellis-context", mcpEntry sep g)])
      [("command", Json.str "python"), ("args", Json.arr [Json.str (normalizeSlashes
        (render sep (g ++ ["mcp-servers", "trellis-context", "server.py"])))])]
      rfl (lookupKey_setKey_self kvs "mcpServers" _) ?_
    exact hlookT

theorem register_preserves_foreign_entries_witness :
    stC6.mcpFile = .valid (.obj [("mcpServers", .obj [("other-svc",
      .obj [("command", .str "node"), ("args", .arr [.str "svc.js"]),
        ("env", .obj [("PORT", .str "1234")])])])]) ∧
    (∃ st', registerGlobalMcp '/' ["home", ".cursor"] stC6 = some st' ∧
      st'.mcpFile = .valid (.obj (setKey [("mcpServers", .obj [("other-svc",
        .obj [("command", .str "node"), ("args", .arr [.str "svc.js"]),
          ("env", .obj [("PORT", .str "1234")])])])] "mcpServers"
        (.obj ([("other-svc", .obj [("command", .str "node"), ("args", .arr [.str "svc.js"]),
          ("env", .obj [("PORT", .str "1234")])])] ++
            [("trellis-context", mcpEntry '/' ["home", ".cursor"])])))) ∧
      lookupKey ([("other-svc", .obj [("command", .str "node"), ("args", .arr [.str "svc.js"]),
          ("env", .obj [("PORT", .str "1234")])])] ++
        [("trellis-context", mcpEntry '/' ["home", ".cursor"])]) "other-svc" =
        some (.obj [("command", .str "node"), ("args", .arr [.str "svc.js"]),
          ("env", .obj [("PORT", .str "1234")])]) ∧
      lookupKey ([("other-svc", .obj [("command", .str "node"), ("args", .arr [.str "svc.js"]),
          ("env", .obj [("PORT", .str "1234")])])] ++
        [("trellis-context", mcpEntry '/' ["home", ".cursor"])]) "trellis-context" =
        some (mcpEntry '/' ["home", ".cursor"]) ∧
      registerGlobalMcp '/' ["home", ".cursor"] st' = some st') :=
  ⟨rfl, register_preserves_foreign_entries '/' ["home", ".cursor"] stC6
    [("mcpServers", .obj [("other-svc", .obj [("command", .str "node"),
      ("args", .arr [.str "svc.js"]), ("env", .obj [("PORT", .str "1234")])])])]
    [("other-svc", .obj [("command", .str "node"), ("args", .arr [.str "svc.js"]),
      ("env", .obj [("PORT", .str "1234")])])]
    (.obj [("command", .str "node"), ("args", .arr [.str "svc.js"]),
      ("env", .obj [("PORT", .str "1234")])])
    rfl (by simp [lookupKey]) (by simp [lookupKey]) (by simp [lookupKey])⟩

/-- C10: whenever a parseable document's top level holds keys other than
`"mcpServers"`, the rewrite that inserts `"trellis-context"` leaves every
such key and its value unchanged (covering `mcpServers` absent, falsy, or
an object without a truthy `"trellis-context"`). -/
theorem register_preserves_top_level_keys (sep : Char) (g : Path) (st : State)
    (kvs : List (String × Json))
    (h : st.mcpFile = .valid (.obj kvs))
    (hins : lookupKey kvs "mcpServers" = none ∨
      (∃ v, lookupKey kvs "mcpServers" = some v ∧ jsFalsy v = true) ∨
      (∃ svs, lookupKey kvs "mcpServers" = some (.obj svs) ∧
        jsTruthyOpt (lookupKey svs "trellis-context") = false)) :
    ∃ kvs', registerGlobalMcp sep g st = some { st with mcpFile := .valid (.obj kvs') } ∧
      ∀ k, k ≠ "mcpServers" → lookupKey kvs' k = lookupKey kvs k := by
  have htru0 : jsTruthyOpt (some (Json.obj ([] : List (String × Json)))) = true := rfl
  have hno0 : jsTruthyOpt (lookupKey ([] : List (String × Json)) "trellis-context") = false := rfl
  rcases hins with hnone | ⟨v, hv, hfal⟩ | ⟨svs, hs, hno⟩
  · have hfal2 : jsTruthyOpt (lookupKey kvs "mcpServers") = false := by rw [hnone]; rfl
    have hs2 : lookupKey (setKey kvs "mcpServers" (Json.obj [])) "mcpServers" =
        some (Json.obj []) := lookupKey_setKey_self kvs "mcpServers" _
    refine ⟨setKey (setKey kvs "mcpServers" (Json.obj [])) "mcpServers"
      (Json.obj (setKey [] "trellis-context" (mcpEntry sep g))), ?_, ?_⟩
    · rw [registerGlobalMcp, h]
      simp [normalizedConfig, hfal2, hs2, htru0, hno0]
    · intro k hk
      rw [lookupKey_setKey_ne _ _ _ _ hk, lookupKey_setKey_ne _ _ _ _ hk]
  · have hfal2 : jsTruthyOpt (lookupKey kvs "mcpServers") = false := by
      rw [hv]
      simp [jsTruthyOpt, hfal]
    have hs2 : lookupKey (setKey kvs "mcpServers" (Json.obj [])) "mcpServers" =
        some (Json.obj []) := lookupKey_setKey_self kvs "mcpServers" _
    refine ⟨setKey (setKey kvs "mcpServers" (Json.obj [])) "mcpServers"
      (Json.obj (setKey [] "trellis-context" (mcpEntry sep g))), ?_, ?_⟩
    · rw [registerGlobalMcp, h]
      simp [normalizedConfig, hfal2, hs2, htru0, hno0]
    · intro k hk
      rw [lookupKey_setKey_ne _ _ _ _ hk, lookupKey_setKey_ne _ _ _ _ hk]
  · have hreg := registerGlobalMcp_insert sep g st kvs svs h hs hno
    exact ⟨_, hreg, fun k hk => lookupKey_setKey_ne _ _ _ _ hk⟩

theorem register_preserves_top_level_keys_witness :
    stC10.mcpFile = .valid (.obj [("otherTopLevel", .str "keep me"),
      ("mcpServers", .obj [])]) ∧
    (∃ kvs', registerGlobalMcp '/' ["home", ".cursor"] stC10 =
        some { stC10 with mcpFile := .valid (.obj kvs') } ∧
      ∀ k, k ≠ "mcpServers" → lookupKey kvs' k =
        lookupKey [("otherTopLevel", .str "keep me"), ("mcpServers", .obj [])] k) :=
  ⟨rfl, register_preserves_top_level_keys '/' ["home", ".cursor"] stC10
    [("otherTopLevel", .str "keep me"), ("mcpServers", .obj [])] rfl
    (Or.inr (Or.inr ⟨[], by simp [lookupKey], rfl⟩))⟩

/-- C1: running the full install (`configureCursor`) twice from an empty
global root and an empty project root yields identical filesystem state
after run 1 and run 2: the second run adds no files and no directories,
leaves the config document `mcp.json` unchanged (so its entry count does
not increase), and rewrites the activation file `hooks.json` with the same
content (equal parsed documents; `JSON.stringify` is deterministic, so the
bytes coincide) — for every well-formed template bundle whose unit
subpaths, where present, are directories. -/
theorem install_idempotent (sep : Char) (userHome cwd templatePath : Path) (t : Node)
    (hwf : wfB t = true) (_hshape : unitShape t = true) :
    ∃ s1 s2,
      configureCursor sep userHome cwd templatePath t emptyState = some s1 ∧
      configureCursor sep userHome cwd templatePath t s1 = some s2 ∧
      s2.disk.files = s1.disk.files ∧
      s2.disk.dirs = s1.disk.dirs ∧
      s2.mcpFile = s1.mcpFile ∧
      s2.hooksFile = s1.hooksFile ∧
      s1.hooksFile = some (hooksConfig sep (userHome ++ [".cursor"])) :=
  configureCursor_run_twice sep userHome cwd templatePath t hwf

theorem install_idempotent_witness :
    (wfB tEx = true ∧ unitShape tEx = true) ∧
    (∃ s1 s2,
      configureCursor '/' ["home"] ["proj"] ["tpl"] tEx emptyState = some s1 ∧
      configureCursor '/' ["home"] ["proj"] ["tpl"] tEx s1 = some s2 ∧
      s2.disk.files = s1.disk.files ∧
      s2.disk.dirs = s1.disk.dirs ∧
      s2.mcpFile = s1.mcpFile ∧
      s2.hooksFile = s1.hooksFile ∧
      s1.hooksFile = some (hooksConfig '/' (["home"] ++ [".cursor"]))) :=
  ⟨⟨by simp [tEx, wfB, wfEntries], by decide⟩,
    install_idempotent '/' ["home"] ["proj"] ["tpl"] tEx
      (by simp [tEx, wfB, wfEntries]) (by decide)⟩

/-- C2: a `skipExisting = true` copy leaves every destination file that
already existed with its content unchanged, whatever the template holds,
and the corresponding source file is not even read (no new entry in the
read log for it). -/
theorem skip_existing_preserves (node : Node) (s dest : Path) (d : Disk) (p : Path)
    (c : String) (h : d.files p = some c) :
    (copyDirFiltered node s dest true d).files p = some c ∧
    ∀ r, p = dest ++ r →
      (s ++ r) ∈ (copyDirFiltered node s dest true d).reads → (s ++ r) ∈ d.reads := by
  refine ⟨copyDirFiltered_preserve node s dest d p c h, ?_⟩
  intro r hp hr
  match node with
  | .file c' => rwa [copyDirFiltered] at hr
  | .dir es =>
    rw [copyDirFiltered] at hr
    rcases copyEntries_reads es s dest _ _ hr with hin | ⟨r', hr', hex2⟩
    · simpa [ensureDir] using hin
    · exfalso
      have hrr : r' = r := (List.append_cancel_left hr').symm
      subst hrr
      have hex : existsAt (ensureDir d dest) (dest ++ r') = true := by
        refine ensureDir_exists_mono d dest _ ?_
        rw [← hp]
        simp [existsAt, h]
      rw [hex] at hex2
      cases hex2

theorem skip_existing_preserves_witness :
    dC2.files ["g", "dest", "custom.md"] = some "user edit" ∧
    ((copyDirFiltered nC2 ["tpl", "u"] ["g", "dest"] true dC2).files
        ["g", "dest", "custom.md"] = some "user edit" ∧
      ∀ r, ["g", "dest", "custom.md"] = ["g", "dest"] ++ r →
        (["tpl", "u"] ++ r) ∈ (copyDirFiltered nC2 ["tpl", "u"] ["g", "dest"] true dC2).reads →
        (["tpl", "u"] ++ r) ∈ dC2.reads) :=
  ⟨by decide,
    skip_existing_preserves nC2 ["tpl", "u"] ["g", "dest"] dC2
      ["g", "dest", "custom.md"] "user edit" (by decide)⟩

/-- C3 counterexample: a file `bundle.js` — carrying the denylisted
suffix `.js` — placed inside the background-service unit of the template
tree IS copied to the destination: the flat copy in
`installGlobalMcpServer` applies no exclusion filter, and the full install
from empty state creates the file. -/
theorem exclusion_counterexample :
    shouldExclude "bundle.js" = true ∧
    emptyState.disk.files ["home", ".cursor", "mcp-servers", "trellis-context", "bundle.js"] =
      none ∧
    (installGlobalMcpServer ["home", ".cursor"] ["tpl"] tC3 emptyState.disk).files
      ["home", ".cursor", "mcp-servers", "trellis-context", "bundle.js"] =
      some "compiled artifact" ∧
    (∃ st, configureCursor '/' ["home"] ["proj"] ["tpl"] tC3 emptyState = some st ∧
      st.disk.files ["home", ".cursor", "mcp-servers", "trellis-context", "bundle.js"] =
        some "compiled artifact") := by
  refine ⟨by decide, by decide, ?_, ?_⟩
  · simp [installGlobalMcpServer, tC3, Node.find?, emptyState, existsAt, flatCopyFiles,
      writeFile, recordRead, ensureDir]
  · refine ⟨_, configureCursor_missing '/' ["home"] ["proj"] ["tpl"] tC3 emptyState
      (Or.inl rfl), ?_⟩
    show (installGlobalMcpServer (["home"] ++ [".cursor"]) ["tpl"] tC3
        (installGlobalCommands (["home"] ++ [".cursor"]) ["tpl"] tC3
          (installGlobalHooks (["home"] ++ [".cursor"]) ["tpl"] tC3
            (installGlobalAgents (["home"] ++ [".cursor"]) ["tpl"] tC3
              (ensureDir (ensureDir emptyState.disk (["home"] ++ [".cursor"]))
                (["proj"] ++ [".cursor"])))))).files
        ["home", ".cursor", "mcp-servers", "trellis-context", "bundle.js"] =
      some "compiled artifact"
    rw [installGlobalAgents_eq_none _ _ _ _ (by rfl),
      installGlobalHooks_eq_none _ _ _ _ (by rfl),
      installGlobalCommands_eq_none _ _ _ _ (by rfl)]
    simp +decide [installGlobalMcpServer, tC3, Node.find?, emptyState, existsAt,
      flatCopyFiles, writeFile, recordRead, ensureDir, dirChain]

/-- C3 amended: the recursive tree copier (the mechanism behind the
agents, hooks and commands units, in any skip mode) never creates or
modifies a destination file except strictly below its destination at a
path all of whose components pass the denylist: a file with a denylisted
suffix is never written, and everything below a directory whose name
matches the denylist is pruned.  The background-service flat copy applies
no such filter (see the counterexample). -/
theorem tree_copy_excludes (node : Node) (s dest : Path) (sk : Bool) (d : Disk) (q : Path)
    (h : cleanUnder dest q = false) :
    (copyDirFiltered node s dest sk d).files q = d.files q := by
  match node with
  | .file c => rw [copyDirFiltered]
  | .dir es =>
    rw [copyDirFiltered]
    rw [copyEntries_frame es s dest sk _ q h]
    rfl

theorem tree_copy_excludes_witness :
    (cleanUnder ["g", "agents"] ["g", "agents", "x.js"] = false ∧
      (copyDirFiltered (.dir [("x.js", .file "artifact")]) ["tpl", "agents"] ["g", "agents"]
        true emptyState.disk).files ["g", "agents", "x.js"] =
        emptyState.disk.files ["g", "agents", "x.js"]) ∧
    (cleanUnder ["g", "agents"] ["g", "agents", "__pycache__", "mod.md"] = false ∧
      (copyDirFiltered (.dir [("__pycache__", .dir [("mod.md", .file "m")])]) ["tpl", "agents"]
        ["g", "agents"] true emptyState.disk).files ["g", "agents", "__pycache__", "mod.md"] =
        emptyState.disk.files ["g", "agents", "__pycache__", "mod.md"]) :=
  ⟨⟨by decide, tree_copy_excludes _ _ _ _ _ _ (by decide)⟩,
    ⟨by decide, tree_copy_excludes _ _ _ _ _ _ (by decide)⟩⟩

/-- C4 counterexample: the prompt-agent installer has no completion-marker
guard.  With the unit's primary file `agents/implement.md` already present
at the destination (first install completed), the installer still acts: it
creates the other template file `plan.md` — while, per its per-file
skip-existing policy, leaving the existing file untouched. -/
theorem marker_counterexample :
    existsAt dC4 ["home", ".cursor", "agents", "implement.md"] = true ∧
    dC4.files ["home", ".cursor", "agents", "plan.md"] = none ∧
    (installGlobalAgents ["home", ".cursor"] ["tpl"] tC4 dC4).files
      ["home", ".cursor", "agents", "plan.md"] = some "T2" := by
  refine ⟨by decide, by decide, ?_⟩
  rw [installGlobalAgents_eq_some _ _ _ _
    (.dir [("implement.md", .file "T1"), ("plan.md", .file "T2")]) (by rfl)]
  rw [copyDirFiltered]
  rw [copyEntries]
  rw [if_neg (by decide)]
  rw [if_pos (by decide)]
  rw [copyEntries]
  rw [if_neg (by decide)]
  rw [if_neg (by decide)]
  rw [copyEntries]
  decide

/-- C4 amended: each of the three tree installers (agents, hooks,
commands) checks only that its template subpath exists and then invokes
the tree copier with `skipExisting = true` — there is no unit-level
completion marker for them; only the background-service installer is
guarded by a marker (`server.py` at its destination), and on a first
install it performs a flat file copy, not a tree copy. -/
theorem scoped_installers_spec (g tp : Path) (t : Node) (d : Disk) :
    (t.find? ["agents"] = none → installGlobalAgents g tp t d = d) ∧
    (t.find? ["hooks"] = none → installGlobalHooks g tp t d = d) ∧
    (t.find? ["commands"] = none → installGlobalCommands g tp t d = d) ∧
    (t.find? ["mcp-servers", "trellis-context"] = none →
      installGlobalMcpServer g tp t d = d) ∧
    (∀ node, t.find? ["mcp-servers", "trellis-context"] = some node →
      existsAt d (g ++ ["mcp-servers", "trellis-context", "server.py"]) = true →
      installGlobalMcpServer g tp t d = d) ∧
    (∀ node, t.find? ["agents"] = some node →
      installGlobalAgents g tp t d =
        copyDirFiltered node (tp ++ ["agents"]) (g ++ ["agents"]) true d) ∧
    (∀ node, t.find? ["hooks"] = some node →
      installGlobalHooks g tp t d =
        copyDirFiltered node (tp ++ ["hooks"]) (g ++ ["hooks"]) true d) ∧
    (∀ node, t.find? ["commands"] = some node →
      installGlobalCommands g tp t d =
        copyDirFiltered node (tp ++ ["commands"]) (g ++ ["commands"]) true d) ∧
    (∀ es, t.find? ["mcp-servers", "trellis-context"] = some (.dir es) →
      existsAt d (g ++ ["mcp-servers", "trellis-context", "server.py"]) = false →
      installGlobalMcpServer g tp t d =
        flatCopyFiles es (tp ++ ["mcp-servers", "trellis-context"])
          (g ++ ["mcp-servers", "trellis-context"])
          (ensureDir d (g ++ ["mcp-servers", "trellis-context"]))) :=
  ⟨fun h => installGlobalAgents_eq_none g tp t d h,
    fun h => installGlobalHooks_eq_none g tp t d h,
    fun h => installGlobalCommands_eq_none g tp t d h,
    fun h => installGlobalMcpServer_eq_none g tp t d h,
    fun node h hm => installGlobalMcpServer_eq_marker g tp t d node h hm,
    fun node h => installGlobalAgents_eq_some g tp t d node h,
    fun node h => installGlobalHooks_eq_some g tp t d node h,
    fun node h => installGlobalCommands_eq_some g tp t d node h,
    fun es h hm => installGlobalMcpServer_eq_flat g tp t d es h hm⟩

theorem scoped_installers_spec_witness :
    (installGlobalAgents ["g"] ["tp"] (.dir []) emptyState.disk = emptyState.disk ∧
      installGlobalHooks ["g"] ["tp"] (.dir []) emptyState.disk = emptyState.disk ∧
      installGlobalCommands ["g"] ["tp"] (.dir []) emptyState.disk = emptyState.disk ∧
      installGlobalMcpServer ["g"] ["tp"] (.dir []) emptyState.disk = emptyState.disk) ∧
    installGlobalAgents ["g"] ["tp"] tC4 emptyState.disk =
      copyDirFiltered (.dir [("implement.md", .file "T1"), ("plan.md", .file "T2")])
        (["tp"] ++ ["agents"]) (["g"] ++ ["agents"]) true emptyState.disk := by
  have h1 := scoped_installers_spec ["g"] ["tp"] (.dir []) emptyState.disk
  have h2 := scoped_installers_spec ["g"] ["tp"] tC4 emptyState.disk
  exact ⟨⟨h1.1 rfl, h1.2.1 rfl, h1.2.2.1 rfl, h1.2.2.2.1 rfl⟩,
    h2.2.2.2.2.2.1 (.dir [("implement.md", .file "T1"), ("plan.md", .file "T2")]) rfl⟩

end Trellis
